import Mathlib

/-!
Verification development for the geometric core of a CUDA path tracer
(`src/intersections.h`): ray-box, ray-sphere, ray-mesh and ray-octree
intersection tests.

Modelling conventions:
* Scalars are exact rationals `ℚ` in place of IEEE `float`.
* The square-root function used by `glm::length`, `glm::normalize` and the
  sphere test is not exactly representable over `ℚ`; every definition is
  therefore parameterised by a function `s : ℚ → ℚ` standing for `sqrtf`,
  so that `glm::length v = s (dot v v)`.  Theorems that need facts about
  `sqrtf` (e.g. non-negativity, which IEEE `sqrtf` satisfies) take them as
  explicit hypotheses on `s`.
* C++ reference out-parameters (`intersectionPoint`, `normal`, `outside`)
  are modelled by threading a `HitOut` record through each test: the test
  receives the caller's current values and returns the float result
  together with the final values of the three out-parameters.
* The unbounded `while` loop of the octree traversal is embedded with
  explicit fuel, returning `none` when the fuel runs out.
* `glm::intersectRayTriangle` (external library code, the 6-argument
  `vec3` barycentric overload used by the source) is modelled as the
  standard one-sided Möller–Trumbore test it implements.
-/

namespace PT

/-- 3-component vector of rationals, modelling `glm::vec3`. -/
structure Vec3 where
  x : ℚ
  y : ℚ
  z : ℚ
  deriving DecidableEq, Repr

/-- 4-component vector of rationals, modelling `glm::vec4`. -/
structure Vec4 where
  x : ℚ
  y : ℚ
  z : ℚ
  w : ℚ
  deriving DecidableEq, Repr

/-- Column-major 4x4 matrix, modelling `glm::mat4` (four columns). -/
structure Mat4 where
  c0 : Vec4
  c1 : Vec4
  c2 : Vec4
  c3 : Vec4
  deriving DecidableEq, Repr

def Vec3.add (a b : Vec3) : Vec3 := ⟨a.x + b.x, a.y + b.y, a.z + b.z⟩

def Vec3.sub (a b : Vec3) : Vec3 := ⟨a.x - b.x, a.y - b.y, a.z - b.z⟩

def Vec3.neg (a : Vec3) : Vec3 := ⟨-a.x, -a.y, -a.z⟩

def Vec3.smul (c : ℚ) (a : Vec3) : Vec3 := ⟨c * a.x, c * a.y, c * a.z⟩

instance : Add Vec3 := ⟨Vec3.add⟩

instance : Sub Vec3 := ⟨Vec3.sub⟩

instance : Neg Vec3 := ⟨Vec3.neg⟩

instance : SMul ℚ Vec3 := ⟨Vec3.smul⟩

theorem Vec3.add_mk (ax ay az bx by' bz : ℚ) :
    (Vec3.mk ax ay az) + (Vec3.mk bx by' bz) = ⟨ax + bx, ay + by', az + bz⟩ := rfl

theorem Vec3.sub_mk (ax ay az bx by' bz : ℚ) :
    (Vec3.mk ax ay az) - (Vec3.mk bx by' bz) = ⟨ax - bx, ay - by', az - bz⟩ := rfl

theorem Vec3.neg_mk (ax ay az : ℚ) : -(Vec3.mk ax ay az) = ⟨-ax, -ay, -az⟩ := rfl

theorem Vec3.smul_mk (c ax ay az : ℚ) :
    c • (Vec3.mk ax ay az) = ⟨c * ax, c * ay, c * az⟩ := rfl

/-- `glm::dot` on `vec3`. -/
def dot3 (a b : Vec3) : ℚ := a.x * b.x + a.y * b.y + a.z * b.z

/-- `glm::cross`. -/
def cross3 (a b : Vec3) : Vec3 :=
  ⟨a.y * b.z - a.z * b.y, a.z * b.x - a.x * b.z, a.x * b.y - a.y * b.x⟩

/-- Component access `v[xyz]` for `xyz ∈ {0,1,2}`. -/
def Vec3.comp (v : Vec3) : Fin 3 → ℚ
  | 0 => v.x
  | 1 => v.y
  | 2 => v.z

/-- The axis-aligned vector whose `xyz` component is `c` and whose other
components are the zero-initialised `glm::vec3` defaults. -/
def axisVec (xyz : Fin 3) (c : ℚ) : Vec3 :=
  match xyz with
  | 0 => ⟨c, 0, 0⟩
  | 1 => ⟨0, c, 0⟩
  | 2 => ⟨0, 0, c⟩

def zero3 : Vec3 := ⟨0, 0, 0⟩

/-- Extend a `Vec3` to a `Vec4` with the given `w`. -/
def toVec4 (v : Vec3) (w : ℚ) : Vec4 := ⟨v.x, v.y, v.z, w⟩

/-- `multiplyMV`: multiplies a `mat4` and a `vec4` and clips the result to a
`vec3` (glm matrices are column-major, so `m * v` is the linear combination
of the columns weighted by the components of `v`). -/
def multiplyMV (m : Mat4) (v : Vec4) : Vec3 :=
  ⟨m.c0.x * v.x + m.c1.x * v.y + m.c2.x * v.z + m.c3.x * v.w,
   m.c0.y * v.x + m.c1.y * v.y + m.c2.y * v.z + m.c3.y * v.w,
   m.c0.z * v.x + m.c1.z * v.y + m.c2.z * v.z + m.c3.z * v.w⟩

/-- The identity `mat4`. -/
def idMat4 : Mat4 :=
  ⟨⟨1, 0, 0, 0⟩, ⟨0, 1, 0, 0⟩, ⟨0, 0, 1, 0⟩, ⟨0, 0, 0, 1⟩⟩

/-- `Ray`: origin and (not necessarily normalized) direction. -/
structure Ray where
  origin : Vec3
  direction : Vec3
  deriving DecidableEq, Repr

/-- `Geom`: a box (or sphere) primitive; world placement is carried by the
three matrices. -/
structure Geom where
  transform : Mat4
  inverseTransform : Mat4
  invTranspose : Mat4
  deriving DecidableEq, Repr

/-- The three C++ reference out-parameters of every intersection test. -/
structure HitOut where
  point : Vec3
  normal : Vec3
  outside : Bool
  deriving DecidableEq, Repr

/-- `glm::length v` = `sqrtf (dot v v)`, with `s` standing for `sqrtf`. -/
def lengthS (s : ℚ → ℚ) (v : Vec3) : ℚ := s (dot3 v v)

/-- `glm::normalize v` = `v / length v`. -/
def normalizeS (s : ℚ → ℚ) (v : Vec3) : Vec3 :=
  (1 / lengthS s v) • v

/-- `getPointOnRay`: point at parameter `t` on ray `r`, falling short by the
source's `.0001f` bias so the next bounce does not re-hit the surface. -/
def getPointOnRay (s : ℚ → ℚ) (r : Ray) (t : ℚ) : Vec3 :=
  r.origin + (t - 1 / 10000) • normalizeS s r.direction

/-- Extended rationals modelling the IEEE float values the slab loop of
`boxIntersectionTest` produces when it divides by a zero direction
component (the source deliberately leaves the `abs(qdxyz) > 1e-5` guard
commented out and relies on `±inf` semantics). -/
inductive ExtQ where
  | nan : ExtQ
  | ninf : ExtQ
  | pinf : ExtQ
  | fin (q : ℚ) : ExtQ
  deriving DecidableEq, Repr

/-- IEEE division of a finite numerator by a finite divisor: `±inf` on a
zero divisor with nonzero numerator, `NaN` on `0 / 0`.  (The divisor is
modelled as `+0` when zero; `ℚ` has no negative zero.) -/
def qdivE (a b : ℚ) : ExtQ :=
  if b ≠ 0 then .fin (a / b)
  else if 0 < a then .pinf
  else if a < 0 then .ninf
  else .nan

/-- IEEE `<` on extended values: every comparison with `NaN` is false. -/
def ExtQ.lt : ExtQ → ExtQ → Bool
  | .fin a, .fin b => a < b
  | .fin _, .pinf => true
  | .ninf, .fin _ => true
  | .ninf, .pinf => true
  | _, _ => false

/-- IEEE `<=` on extended values: false whenever `NaN` is involved. -/
def ExtQ.le : ExtQ → ExtQ → Bool
  | .fin a, .fin b => a ≤ b
  | .fin _, .pinf => true
  | .ninf, .ninf => true
  | .ninf, .fin _ => true
  | .ninf, .pinf => true
  | .pinf, .pinf => true
  | _, _ => false

/-- `glm::min(x, y) = y < x ? y : x` (NaN-propagation as in the float
operator). -/
def ExtQ.minG (x y : ExtQ) : ExtQ := if y.lt x then y else x

/-- `glm::max(x, y) = x < y ? y : x`. -/
def ExtQ.maxG (x y : ExtQ) : ExtQ := if x.lt y then y else x

/-- The finite value of an extended rational (junk `0` on non-finite
values, which the hit path of the box test never extracts for
non-degenerate directions). -/
def ExtQ.toRat : ExtQ → ℚ
  | .fin q => q
  | _ => 0

/-- Running state of the slab loop in `boxIntersectionTest`:
`tmin`/`tmax` with the axis normals that produced them. -/
structure SlabState where
  tmin : ExtQ
  tmax : ExtQ
  tmin_n : Vec3
  tmax_n : Vec3
  deriving DecidableEq, Repr

/-- Initial slab state: `tmin = -1e38`, `tmax = 1e38`, normals
zero-initialised (`glm::vec3` default). -/
def slabInit : SlabState :=
  ⟨.fin (-(10 ^ 38 : ℚ)), .fin (10 ^ 38 : ℚ), zero3, zero3⟩

/-- One iteration of the per-axis slab loop of `boxIntersectionTest`. -/
def slabAxis (qo qd : Vec3) (xyz : Fin 3) (st : SlabState) : SlabState :=
  let qdxyz := qd.comp xyz
  let t1 := qdivE (-(1 / 2 : ℚ) - qo.comp xyz) qdxyz
  let t2 := qdivE ((1 / 2 : ℚ) - qo.comp xyz) qdxyz
  let ta := t1.minG t2
  let tb := t1.maxG t2
  let n := axisVec xyz (if t2.lt t1 then 1 else -1)
  let st1 := if (ExtQ.fin 0).lt ta ∧ st.tmin.lt ta then { st with tmin := ta, tmin_n := n } else st
  if tb.lt st1.tmax then { st1 with tmax := tb, tmax_n := n } else st1

/-- The slab state after the three axis iterations, from the local-space ray
`(qo, qd)`. -/
def slabRun (qo qd : Vec3) : SlabState :=
  slabAxis qo qd 2 (slabAxis qo qd 1 (slabAxis qo qd 0 slabInit))

/-- Local-space origin of the ray transformed into a primitive's frame. -/
def localOrigin (m : Mat4) (r : Ray) : Vec3 :=
  multiplyMV m (toVec4 r.origin 1)

/-- Local-space (normalized) direction of the transformed ray. -/
def localDirection (s : ℚ → ℚ) (m : Mat4) (r : Ray) : Vec3 :=
  normalizeS s (multiplyMV m (toVec4 r.direction 0))

/-- `boxIntersectionTest`: ray vs. transformed unit cube `[-0.5, 0.5]^3`.
Returns the float result together with the final out-parameter values. -/
def boxIntersectionTest (s : ℚ → ℚ) (box : Geom) (r : Ray) (st : HitOut) :
    ℚ × HitOut :=
  let qo := localOrigin box.inverseTransform r
  let qd := localDirection s box.inverseTransform r
  let sl := slabRun qo qd
  if sl.tmin.le sl.tmax ∧ (ExtQ.fin 0).lt sl.tmax then
    let tsel := if sl.tmin.le (.fin 0) then sl.tmax else sl.tmin
    let nsel := if sl.tmin.le (.fin 0) then sl.tmax_n else sl.tmin_n
    let outs := if sl.tmin.le (.fin 0) then false else true
    let ip := multiplyMV box.transform (toVec4 (getPointOnRay s ⟨qo, qd⟩ tsel.toRat) 1)
    let nrm := normalizeS s (multiplyMV box.invTranspose (toVec4 nsel 0))
    (lengthS s (r.origin - ip), ⟨ip, nrm, outs⟩)
  else
    (-1, st)

/-- `sphereIntersectionTest`: ray vs. transformed radius-`0.5` sphere. -/
def sphereIntersectionTest (s : ℚ → ℚ) (sphere : Geom) (r : Ray) (st : HitOut) :
    ℚ × HitOut :=
  let radius : ℚ := 1 / 2
  let ro := localOrigin sphere.inverseTransform r
  let rd := localDirection s sphere.inverseTransform r
  let vDotDirection := dot3 ro rd
  let radicand := vDotDirection * vDotDirection - (dot3 ro ro - radius ^ 2)
  if radicand < 0 then
    (-1, st)
  else
    let squareRoot := s radicand
    let firstTerm := -vDotDirection
    let t1 := firstTerm + squareRoot
    let t2 := firstTerm - squareRoot
    if t1 < 0 ∧ t2 < 0 then
      (-1, st)
    else
      let t := if 0 < t1 ∧ 0 < t2 then min t1 t2 else max t1 t2
      let outs := if 0 < t1 ∧ 0 < t2 then true else false
      let objspaceIntersection := getPointOnRay s ⟨ro, rd⟩ t
      let ip := multiplyMV sphere.transform (toVec4 objspaceIntersection 1)
      let nrm0 := normalizeS s (multiplyMV sphere.invTranspose (toVec4 objspaceIntersection 0))
      let nrm := if outs then nrm0 else -nrm0
      (lengthS s (r.origin - ip), ⟨ip, nrm, outs⟩)

/-- `FLT_EPSILON`, the rejection threshold of `glm::intersectRayTriangle`. -/
def glmEpsilon : ℚ := 1 / 2 ^ 23

/-- `glm::intersectRayTriangle` (the 6-argument `vec3`-barycentric overload
called by the source): one-sided Möller–Trumbore.  Returns the barycentric
output vector `(u, v, t)` on success, `none` on rejection. -/
def intersectRayTriangle (orig dir vert0 vert1 vert2 : Vec3) : Option Vec3 :=
  let edge1 := vert1 - vert0
  let edge2 := vert2 - vert0
  let pvec := cross3 dir edge2
  let det := dot3 edge1 pvec
  if det < glmEpsilon then none
  else
    let tvec := orig - vert0
    let bx := dot3 tvec pvec / det
    if bx < 0 ∨ 1 < bx then none
    else
      let qvec := cross3 tvec edge1
      let by' := dot3 dir qvec / det
      if by' < 0 ∨ 1 < bx + by' then none
      else
        let bz := dot3 edge2 qvec / det
        if bz < 0 then none else some ⟨bx, by', bz⟩

/-- A triangle given by its three vertex positions (the self-contained
per-leaf copies stored by the octree; also the decoded form of a mesh
index triple). -/
structure Triangle where
  v0 : Vec3
  v1 : Vec3
  v2 : Vec3
  deriving DecidableEq, Repr

/-- `Mesh`: transform matrices plus flat vertex/index arrays (C arrays are
modelled as total functions; the build invariant keeps accesses in
bounds). -/
structure Mesh where
  transform : Mat4
  inverseTransform : Mat4
  invTranspose : Mat4
  vertices : ℤ → ℚ
  indices : ℤ → ℤ
  numIndices : ℕ

/-- The vertex fetched for index slot `i`: `mesh.vertices[mesh.indices[i]*3 ..]`. -/
def meshVert (mesh : Mesh) (i : ℤ) : Vec3 :=
  ⟨mesh.vertices (mesh.indices i * 3),
   mesh.vertices (mesh.indices i * 3 + 1),
   mesh.vertices (mesh.indices i * 3 + 2)⟩

/-- The triangle decoded from index slots `i, i+1, i+2`. -/
def meshTriangle (mesh : Mesh) (i : ℤ) : Triangle :=
  ⟨meshVert mesh i, meshVert mesh (i + 1), meshVert mesh (i + 2)⟩

/-- The base index slots visited by the mesh loop
(`for i = 0; i < numIndices; i += 3`). -/
def meshTriIndices (mesh : Mesh) : List ℤ :=
  (List.range ((mesh.numIndices + 2) / 3)).map (fun k => (3 * k : ℤ))

/-- Running state of the closest-hit loops: best distance so far (`-1` when
no hit yet) plus the current values of the `intersectionPoint` / `normal`
out-parameters. -/
structure TriState where
  t : ℚ
  point : Vec3
  normal : Vec3
  deriving DecidableEq, Repr

/-- The hit record a triangle produces against the local ray `(ro, rd)`:
`none` when `intersectRayTriangle` rejects, otherwise the triple
`(current_t, intersection, triangle normal)` the loop body computes —
the barycentric intersection point `vert0 + b.x*(vert1-vert0) +
b.y*(vert2-vert0)`, its local-space distance from `ro`, and the normalized
edge cross product. -/
def hitOf (s : ℚ → ℚ) (ro rd : Vec3) (tri : Triangle) : Option (ℚ × Vec3 × Vec3) :=
  (intersectRayTriangle ro rd tri.v0 tri.v1 tri.v2).map (fun barycentric =>
    let intersection := tri.v0 + barycentric.x • (tri.v1 - tri.v0) +
      barycentric.y • (tri.v2 - tri.v0)
    (lengthS s (intersection - ro), intersection,
     normalizeS s (cross3 (tri.v1 - tri.v0) (tri.v2 - tri.v0))))

/-- The hit records of a triangle list, in iteration order. -/
def hitsOf (s : ℚ → ℚ) (ro rd : Vec3) (L : List Triangle) : List (ℚ × Vec3 × Vec3) :=
  L.filterMap (hitOf s ro rd)

/-- View a hit record as a closest-hit loop state. -/
def tupleState (h : ℚ × Vec3 × Vec3) : TriState := ⟨h.1, h.2.1, h.2.2⟩

/-- One triangle step of the closest-hit loops (shared verbatim between the
mesh test and the octree leaf loop): on a triangle hit, update the best hit
when there is none yet (`t < 0`) or the new one is strictly closer. -/
def triStep (s : ℚ → ℚ) (ro rd : Vec3) (st : TriState) (tri : Triangle) : TriState :=
  match hitOf s ro rd tri with
  | none => st
  | some h => if st.t < 0 ∨ h.1 < st.t then tupleState h else st

/-- First-strictly-smaller selection over a list of hit records, starting
from a current best: the reference specification of the closest-hit loops
(a later equal-distance hit never replaces the current best). -/
def runMinAcc (b : ℚ × Vec3 × Vec3) : List (ℚ × Vec3 × Vec3) → ℚ × Vec3 × Vec3
  | [] => b
  | h :: rest => runMinAcc (if h.1 < b.1 then h else b) rest

/-- The world-space post-processing shared by the mesh and octree tests
(lines 202-209 and 297-303 of the source): transform point and normal,
derive `outside` from the facing direction, flip the normal when not
outside, and return the world distance. -/
def facingPost (s : ℚ → ℚ) (transform invTranspose : Mat4) (r : Ray) (rd : Vec3)
    (best : TriState) : ℚ × HitOut :=
  let ip := multiplyMV transform (toVec4 best.point 1)
  let nrm0 := normalizeS s (multiplyMV invTranspose (toVec4 best.normal 0))
  let outs := decide (dot3 nrm0 rd < 0)
  let nrm := if outs then nrm0 else -nrm0
  (lengthS s (r.origin - ip), ⟨ip, nrm, outs⟩)

/-- The local-space triangles the mesh loop iterates over, in order. -/
def meshLocalTris (mesh : Mesh) : List Triangle :=
  (meshTriIndices mesh).map (meshTriangle mesh)

/-- `meshIntersectionTest`: brute-force closest-hit over all index triples. -/
def meshIntersectionTest (s : ℚ → ℚ) (mesh : Mesh) (r : Ray) (st : HitOut) :
    ℚ × HitOut :=
  let ro := localOrigin mesh.inverseTransform r
  let rd := localDirection s mesh.inverseTransform r
  let best := (meshLocalTris mesh).foldl (triStep s ro rd) ⟨-1, st.point, st.normal⟩
  if best.t < 0 then
    (-1, ⟨best.point, best.normal, st.outside⟩)
  else
    facingPost s mesh.transform mesh.invTranspose r rd best

/-- Octree node: leaf flag and 8 child indices (`-1` marks an absent
child). -/
structure OctreeNode where
  isLeaf : Bool
  children : Fin 8 → ℤ

/-- `OctreeDev`: top-level transform matrices, root index, and the node /
bounding-box / leaf-range / triangle-copy arrays (modelled as total
functions like the other C arrays). -/
structure OctreeDev where
  transform : Mat4
  inverseTransform : Mat4
  invTranspose : Mat4
  root : ℤ
  nodes : ℤ → OctreeNode
  boundingBoxes : ℤ → Geom
  dataStarts : ℤ → ℤ
  triangles : ℤ → Triangle

/-- The triangle-array index range `[dataStarts[i], dataStarts[i+1])` of a
leaf node. -/
def leafRange (oct : OctreeDev) (nodeIndex : ℤ) : List ℤ :=
  (List.range (oct.dataStarts (nodeIndex + 1) - oct.dataStarts nodeIndex).toNat).map
    (fun k => oct.dataStarts nodeIndex + (k : ℤ))

/-- The non-sentinel child indices of a node, in the push order `0..7`. -/
def childList (node : OctreeNode) : List ℤ :=
  (List.ofFn node.children).filter (fun c => c ≠ -1)

/-- The child indices an internal node pushes, in the order they are popped
back off the stack (children are pushed `0..7`, so they pop in reverse). -/
def pushedChildren (node : OctreeNode) : List ℤ :=
  (childList node).reverse

/-- State threaded through the octree traversal loop: the closest-hit state
plus the caller's `outside` reference (which the per-node box tests write
through). -/
structure OctState where
  tri : TriState
  outside : Bool
  deriving DecidableEq, Repr

/-- The distance returned by the box test run on a node's bounding box with
the original untransformed world ray `r` (the out-parameters go to the
discarded temporaries, except `outside` which is the caller's). -/
def nodeBoxDist (s : ℚ → ℚ) (oct : OctreeDev) (r : Ray) (nodeIndex : ℤ) : ℚ :=
  (boxIntersectionTest s (oct.boundingBoxes nodeIndex) r ⟨zero3, zero3, false⟩).1

/-- The `outside` value left in the caller's reference by a node's box
test, given the value it held before. -/
def nodeBoxOutside (s : ℚ → ℚ) (oct : OctreeDev) (r : Ray) (nodeIndex : ℤ)
    (prev : Bool) : Bool :=
  (boxIntersectionTest s (oct.boundingBoxes nodeIndex) r ⟨zero3, zero3, prev⟩).2.outside

/-- The octree traversal `while` loop, embedded with fuel (one unit per
popped node); the explicit stack is the list, top first.  Returns `none`
when the fuel runs out with the stack non-empty. -/
def octreeLoop (s : ℚ → ℚ) (oct : OctreeDev) (r : Ray) (ro rd : Vec3) :
    ℕ → List ℤ → OctState → Option OctState
  | _, [], st => some st
  | 0, _ :: _, _ => none
  | fuel + 1, nodeIndex :: rest, st =>
    let node := oct.nodes nodeIndex
    let st1 : OctState := ⟨st.tri, nodeBoxOutside s oct r nodeIndex st.outside⟩
    if 0 < nodeBoxDist s oct r nodeIndex then
      if node.isLeaf then
        octreeLoop s oct r ro rd fuel rest
          ⟨((leafRange oct nodeIndex).map oct.triangles).foldl (triStep s ro rd) st1.tri,
           st1.outside⟩
      else
        octreeLoop s oct r ro rd fuel (pushedChildren node ++ rest) st1
    else
      octreeLoop s oct r ro rd fuel rest st1

/-- `octreeIntersectionTest`: stack-based traversal from the root, then the
same post-processing as the mesh test.  `none` when the loop fuel runs
out. -/
def octreeIntersectionTest (s : ℚ → ℚ) (fuel : ℕ) (oct : OctreeDev) (r : Ray)
    (st : HitOut) : Option (ℚ × HitOut) :=
  let ro := localOrigin oct.inverseTransform r
  let rd := localDirection s oct.inverseTransform r
  match octreeLoop s oct r ro rd fuel [oct.root] ⟨⟨-1, st.point, st.normal⟩, st.outside⟩ with
  | none => none
  | some fin =>
    if fin.tri.t < 0 then
      some (-1, ⟨fin.tri.point, fin.tri.normal, fin.outside⟩)
    else
      some (facingPost s oct.transform oct.invTranspose r rd fin.tri)

/-- Specification-side trace of the traversal: the sequence of
triangle-array indices the loop tests, in order.  A node whose box test
reports a distance `≤ 0` contributes nothing and pushes nothing; a hit
leaf contributes its `[dataStarts[i], dataStarts[i+1])` range; a hit
internal node pushes all non-sentinel children.  The trace does not depend
on the running closest-hit state, so no subtree is ever skipped because a
closer hit is already known. -/
def octreeVisit (s : ℚ → ℚ) (oct : OctreeDev) (r : Ray) :
    ℕ → List ℤ → Option (List ℤ)
  | _, [] => some []
  | 0, _ :: _ => none
  | fuel + 1, nodeIndex :: rest =>
    if 0 < nodeBoxDist s oct r nodeIndex then
      if (oct.nodes nodeIndex).isLeaf then
        (octreeVisit s oct r fuel rest).map (fun L => leafRange oct nodeIndex ++ L)
      else
        octreeVisit s oct r fuel (pushedChildren (oct.nodes nodeIndex) ++ rest)
    else
      octreeVisit s oct r fuel rest

/-- Specification-side trace of the caller's `outside` reference during the
traversal: each popped node's box test writes through it. -/
def octreeOutsideTrace (s : ℚ → ℚ) (oct : OctreeDev) (r : Ray) :
    ℕ → List ℤ → Bool → Option Bool
  | _, [], b => some b
  | 0, _ :: _, _ => none
  | fuel + 1, nodeIndex :: rest, b =>
    let b1 := nodeBoxOutside s oct r nodeIndex b
    if 0 < nodeBoxDist s oct r nodeIndex then
      if (oct.nodes nodeIndex).isLeaf then
        octreeOutsideTrace s oct r fuel rest b1
      else
        octreeOutsideTrace s oct r fuel (pushedChildren (oct.nodes nodeIndex) ++ rest) b1
    else
      octreeOutsideTrace s oct r fuel rest b1

/-- Result of the traversal loop when the fixed-capacity stack is modelled
explicitly: `fault` marks an out-of-bounds stack write. -/
inductive CapResult where
  | fault : CapResult
  | fuelOut : CapResult
  | done (st : OctState) : CapResult
  deriving DecidableEq, Repr

/-- Push a batch of child indices one at a time, left to right, onto the
stack, checking `stackSize < cap` before each write exactly where the C
array write `stack[stackSize] = ...` must be in bounds. -/
def pushChecked (cap : ℕ) : List ℤ → List ℤ → Option (List ℤ)
  | [], stack => some stack
  | c :: cs, stack =>
    if stack.length < cap then pushChecked cap cs (c :: stack) else none

/-- The traversal loop over a fixed-capacity stack (`int stack[8*8*8]` in
the source, so `cap = 512`): identical to `octreeLoop` except that every
push is bounds-checked and an overflowing write yields `fault`. -/
def octreeLoopCap (s : ℚ → ℚ) (oct : OctreeDev) (r : Ray) (ro rd : Vec3) (cap : ℕ) :
    ℕ → List ℤ → OctState → CapResult
  | _, [], st => .done st
  | 0, _ :: _, _ => .fuelOut
  | fuel + 1, nodeIndex :: rest, st =>
    let node := oct.nodes nodeIndex
    let st1 : OctState := ⟨st.tri, nodeBoxOutside s oct r nodeIndex st.outside⟩
    if 0 < nodeBoxDist s oct r nodeIndex then
      if node.isLeaf then
        octreeLoopCap s oct r ro rd cap fuel rest
          ⟨((leafRange oct nodeIndex).map oct.triangles).foldl (triStep s ro rd) st1.tri,
           st1.outside⟩
      else
        match pushChecked cap (childList node) rest with
        | none => .fault
        | some newStack => octreeLoopCap s oct r ro rd cap fuel newStack st1
    else
      octreeLoopCap s oct r ro rd cap fuel rest st1

/-- The largest number of simultaneously pending nodes along the traversal:
the running maximum, over the trace, of the stack length after each push
batch (the accumulator starts at the initial stack length). -/
def octreeMaxStack (s : ℚ → ℚ) (oct : OctreeDev) (r : Ray) :
    ℕ → List ℤ → ℕ → Option ℕ
  | _, [], acc => some acc
  | 0, _ :: _, _ => none
  | fuel + 1, nodeIndex :: rest, acc =>
    if 0 < nodeBoxDist s oct r nodeIndex then
      if (oct.nodes nodeIndex).isLeaf then
        octreeMaxStack s oct r fuel rest acc
      else
        octreeMaxStack s oct r fuel (pushedChildren (oct.nodes nodeIndex) ++ rest)
          (max acc (pushedChildren (oct.nodes nodeIndex) ++ rest).length)
    else
      octreeMaxStack s oct r fuel rest acc

/-! ### Characterization of the closest-hit fold -/

theorem hitsOf_cons (s : ℚ → ℚ) (ro rd : Vec3) (tri : Triangle) (L : List Triangle) :
    hitsOf s ro rd (tri :: L) =
      match hitOf s ro rd tri with
      | none => hitsOf s ro rd L
      | some h => h :: hitsOf s ro rd L := by
  cases h : hitOf s ro rd tri with
  | none => simp [hitsOf, List.filterMap_cons, h]
  | some v => simp [hitsOf, List.filterMap_cons, h]

theorem triStep_none (s : ℚ → ℚ) (ro rd : Vec3) (st : TriState) (tri : Triangle)
    (hh : hitOf s ro rd tri = none) : triStep s ro rd st tri = st := by
  unfold triStep
  rw [hh]

theorem triStep_some (s : ℚ → ℚ) (ro rd : Vec3) (st : TriState) (tri : Triangle)
    (h : ℚ × Vec3 × Vec3) (hh : hitOf s ro rd tri = some h) :
    triStep s ro rd st tri = if st.t < 0 ∨ h.1 < st.t then tupleState h else st := by
  unfold triStep
  rw [hh]

theorem hitOf_fst_nonneg (s : ℚ → ℚ) (ro rd : Vec3) (tri : Triangle)
    (h : ℚ × Vec3 × Vec3) (Hs : ∀ x, 0 ≤ s x) (hh : hitOf s ro rd tri = some h) :
    0 ≤ h.1 := by
  unfold hitOf at hh
  cases hb : intersectRayTriangle ro rd tri.v0 tri.v1 tri.v2 with
  | none => rw [hb] at hh; exact absurd hh (by simp)
  | some b =>
    rw [hb, Option.map_some'] at hh
    rw [← Option.some_inj.mp hh]
    exact Hs _

theorem hitsOf_fst_nonneg (s : ℚ → ℚ) (ro rd : Vec3) (L : List Triangle)
    (Hs : ∀ x, 0 ≤ s x) : ∀ h ∈ hitsOf s ro rd L, 0 ≤ h.1 := by
  intro h hmem
  rcases List.mem_filterMap.mp hmem with ⟨tri, _, htri⟩
  exact hitOf_fst_nonneg s ro rd tri h Hs htri

theorem foldl_triStep_of_nonneg (s : ℚ → ℚ) (ro rd : Vec3) :
    ∀ (L : List Triangle) (st : TriState),
      (∀ h ∈ hitsOf s ro rd L, 0 ≤ h.1) → 0 ≤ st.t →
      L.foldl (triStep s ro rd) st =
        tupleState (runMinAcc (st.t, st.point, st.normal) (hitsOf s ro rd L)) := by
  intro L
  induction L with
  | nil => intro st _ _; simp [hitsOf, runMinAcc, tupleState]
  | cons tri rest ih =>
    intro st Hc hst
    rw [List.foldl_cons]
    cases hh : hitOf s ro rd tri with
    | none =>
      rw [triStep_none s ro rd st tri hh,
        ih st (fun h hm => Hc h (by rw [hitsOf_cons, hh]; exact hm)) hst]
      rw [hitsOf_cons, hh]
    | some h =>
      have hmemh : h ∈ hitsOf s ro rd (tri :: rest) := by
        rw [hitsOf_cons, hh]; exact List.mem_cons_self _ _
      have hrest : ∀ h' ∈ hitsOf s ro rd rest, 0 ≤ h'.1 := by
        intro h' hm
        exact Hc h' (by rw [hitsOf_cons, hh]; exact List.mem_cons_of_mem _ hm)
      by_cases hlt : h.1 < st.t
      · have hstep : triStep s ro rd st tri = tupleState h := by
          rw [triStep_some s ro rd st tri h hh]
          exact if_pos (Or.inr hlt)
        rw [hstep, ih (tupleState h) hrest (Hc h hmemh)]
        rw [hitsOf_cons, hh]
        simp [runMinAcc, tupleState, hlt]
      · have hstep : triStep s ro rd st tri = st := by
          rw [triStep_some s ro rd st tri h hh]
          refine if_neg ?_
          rintro (hc | hc)
          · exact absurd hc (not_lt.mpr hst)
          · exact hlt hc
        rw [hstep, ih st hrest hst]
        rw [hitsOf_cons, hh]
        simp [runMinAcc, hlt]

theorem foldl_triStep_start (s : ℚ → ℚ) (ro rd : Vec3) (L : List Triangle)
    (st : TriState) (Hc : ∀ h ∈ hitsOf s ro rd L, 0 ≤ h.1) (hst : st.t < 0) :
    L.foldl (triStep s ro rd) st =
      match hitsOf s ro rd L with
      | [] => st
      | h :: hs => tupleState (runMinAcc h hs) := by
  induction L with
  | nil => simp [hitsOf]
  | cons tri rest ih =>
    rw [List.foldl_cons]
    cases hh : hitOf s ro rd tri with
    | none =>
      rw [triStep_none s ro rd st tri hh,
        ih (fun h hm => Hc h (by rw [hitsOf_cons, hh]; exact hm))]
      rw [hitsOf_cons, hh]
    | some h =>
      have hstep : triStep s ro rd st tri = tupleState h := by
        rw [triStep_some s ro rd st tri h hh]
        exact if_pos (Or.inl hst)
      have hmemh : h ∈ hitsOf s ro rd (tri :: rest) := by
        rw [hitsOf_cons, hh]; exact List.mem_cons_self _ _
      have hrest : ∀ h' ∈ hitsOf s ro rd rest, 0 ≤ h'.1 := by
        intro h' hm
        exact Hc h' (by rw [hitsOf_cons, hh]; exact List.mem_cons_of_mem _ hm)
      rw [hstep,
        foldl_triStep_of_nonneg s ro rd rest (tupleState h) hrest (Hc h hmemh)]
      rw [hitsOf_cons, hh]
      rfl

theorem runMinAcc_minChoice (l : List (ℚ × Vec3 × Vec3)) :
    ∀ b : ℚ × Vec3 × Vec3,
      runMinAcc b l ∈ b :: l ∧ ∀ h ∈ b :: l, (runMinAcc b l).1 ≤ h.1 := by
  induction l with
  | nil =>
    intro b
    refine ⟨List.mem_cons_self _ _, ?_⟩
    intro h hm
    rcases List.mem_cons.mp hm with hm | hm
    · subst hm; simp [runMinAcc]
    · exact absurd hm (List.not_mem_nil _)
  | cons h0 rest ih =>
    intro b
    by_cases hlt : h0.1 < b.1
    · have hrec := ih h0
      have heq : runMinAcc b (h0 :: rest) = runMinAcc h0 rest := by
        simp [runMinAcc, hlt]
      rw [heq]
      constructor
      · rcases List.mem_cons.mp hrec.1 with hm | hm
        · rw [hm]; exact List.mem_cons_of_mem _ (List.mem_cons_self _ _)
        · exact List.mem_cons_of_mem _ (List.mem_cons_of_mem _ hm)
      · intro h hm
        rcases List.mem_cons.mp hm with hm | hm
        · subst hm
          exact le_of_lt (lt_of_le_of_lt (hrec.2 h0 (List.mem_cons_self _ _)) hlt)
        · exact hrec.2 h hm
    · have hrec := ih b
      have heq : runMinAcc b (h0 :: rest) = runMinAcc b rest := by
        simp [runMinAcc, hlt]
      rw [heq]
      constructor
      · rcases List.mem_cons.mp hrec.1 with hm | hm
        · rw [hm]; exact List.mem_cons_self _ _
        · exact List.mem_cons_of_mem _ (List.mem_cons_of_mem _ hm)
      · intro h hm
        rcases List.mem_cons.mp hm with hm | hm
        · exact hrec.2 h (by rw [hm]; exact List.mem_cons_self _ _)
        · rcases List.mem_cons.mp hm with hm | hm
          · subst hm
            exact le_trans (hrec.2 b (List.mem_cons_self _ _)) (not_lt.mp hlt)
          · exact hrec.2 h (List.mem_cons_of_mem _ hm)

theorem runMinAcc_firstMin (l : List (ℚ × Vec3 × Vec3)) :
    ∀ b : ℚ × Vec3 × Vec3,
      (runMinAcc b l = b ∧ ∀ h ∈ l, b.1 ≤ h.1) ∨
      ∃ pre h post, l = pre ++ h :: post ∧ runMinAcc b l = h ∧ h.1 < b.1 ∧
        (∀ h' ∈ pre, h.1 < h'.1) ∧ (∀ h' ∈ post, h.1 ≤ h'.1) := by
  induction l with
  | nil =>
    intro b
    exact Or.inl ⟨rfl, fun h hm => absurd hm (List.not_mem_nil _)⟩
  | cons h0 rest ih =>
    intro b
    by_cases hlt : h0.1 < b.1
    · have heq : runMinAcc b (h0 :: rest) = runMinAcc h0 rest := by
        simp [runMinAcc, hlt]
      rcases ih h0 with ⟨hres, hmin⟩ | ⟨pre, h, post, hsplit, hres, hless, hpre, hpost⟩
      · refine Or.inr ⟨[], h0, rest, by simp, by rw [heq, hres], hlt, ?_, hmin⟩
        intro h' hm
        exact absurd hm (List.not_mem_nil _)
      · refine Or.inr ⟨h0 :: pre, h, post, by rw [hsplit]; rfl, by rw [heq, hres],
          lt_trans hless hlt, ?_, hpost⟩
        intro h' hm
        rcases List.mem_cons.mp hm with hm | hm
        · rw [hm]; exact hless
        · exact hpre h' hm
    · have heq : runMinAcc b (h0 :: rest) = runMinAcc b rest := by
        simp [runMinAcc, hlt]
      rcases ih b with ⟨hres, hmin⟩ | ⟨pre, h, post, hsplit, hres, hless, hpre, hpost⟩
      · refine Or.inl ⟨by rw [heq, hres], ?_⟩
        intro h hm
        rcases List.mem_cons.mp hm with hm | hm
        · rw [hm]; exact not_lt.mp hlt
        · exact hmin h hm
      · refine Or.inr ⟨h0 :: pre, h, post, by rw [hsplit]; rfl, by rw [heq, hres],
          hless, ?_, hpost⟩
        intro h' hm
        rcases List.mem_cons.mp hm with hm | hm
        · rw [hm]; exact lt_of_lt_of_le hless (not_lt.mp hlt)
        · exact hpre h' hm

/-! ### Case equations for the traversal loop and its traces -/

theorem octreeLoop_nil (s : ℚ → ℚ) (oct : OctreeDev) (r : Ray) (ro rd : Vec3)
    (fuel : ℕ) (st : OctState) : octreeLoop s oct r ro rd fuel [] st = some st := by
  cases fuel <;> rfl

theorem octreeLoop_zero (s : ℚ → ℚ) (oct : OctreeDev) (r : Ray) (ro rd : Vec3)
    (nodeIndex : ℤ) (rest : List ℤ) (st : OctState) :
    octreeLoop s oct r ro rd 0 (nodeIndex :: rest) st = none := rfl

theorem octreeLoop_succ (s : ℚ → ℚ) (oct : OctreeDev) (r : Ray) (ro rd : Vec3)
    (fuel : ℕ) (nodeIndex : ℤ) (rest : List ℤ) (st : OctState) :
    octreeLoop s oct r ro rd (fuel + 1) (nodeIndex :: rest) st =
      if 0 < nodeBoxDist s oct r nodeIndex then
        if (oct.nodes nodeIndex).isLeaf then
          octreeLoop s oct r ro rd fuel rest
            ⟨((leafRange oct nodeIndex).map oct.triangles).foldl (triStep s ro rd) st.tri,
             nodeBoxOutside s oct r nodeIndex st.outside⟩
        else
          octreeLoop s oct r ro rd fuel (pushedChildren (oct.nodes nodeIndex) ++ rest)
            ⟨st.tri, nodeBoxOutside s oct r nodeIndex st.outside⟩
      else
        octreeLoop s oct r ro rd fuel rest
          ⟨st.tri, nodeBoxOutside s oct r nodeIndex st.outside⟩ := rfl

theorem octreeVisit_nil (s : ℚ → ℚ) (oct : OctreeDev) (r : Ray) (fuel : ℕ) :
    octreeVisit s oct r fuel [] = some [] := by
  cases fuel <;> rfl

theorem octreeVisit_zero (s : ℚ → ℚ) (oct : OctreeDev) (r : Ray)
    (nodeIndex : ℤ) (rest : List ℤ) :
    octreeVisit s oct r 0 (nodeIndex :: rest) = none := rfl

theorem octreeVisit_succ (s : ℚ → ℚ) (oct : OctreeDev) (r : Ray)
    (fuel : ℕ) (nodeIndex : ℤ) (rest : List ℤ) :
    octreeVisit s oct r (fuel + 1) (nodeIndex :: rest) =
      if 0 < nodeBoxDist s oct r nodeIndex then
        if (oct.nodes nodeIndex).isLeaf then
          (octreeVisit s oct r fuel rest).map (fun L => leafRange oct nodeIndex ++ L)
        else
          octreeVisit s oct r fuel (pushedChildren (oct.nodes nodeIndex) ++ rest)
      else
        octreeVisit s oct r fuel rest := rfl

theorem octreeOutsideTrace_nil (s : ℚ → ℚ) (oct : OctreeDev) (r : Ray) (fuel : ℕ)
    (b : Bool) : octreeOutsideTrace s oct r fuel [] b = some b := by
  cases fuel <;> rfl

theorem octreeOutsideTrace_zero (s : ℚ → ℚ) (oct : OctreeDev) (r : Ray)
    (nodeIndex : ℤ) (rest : List ℤ) (b : Bool) :
    octreeOutsideTrace s oct r 0 (nodeIndex :: rest) b = none := rfl

theorem octreeOutsideTrace_succ (s : ℚ → ℚ) (oct : OctreeDev) (r : Ray)
    (fuel : ℕ) (nodeIndex : ℤ) (rest : List ℤ) (b : Bool) :
    octreeOutsideTrace s oct r (fuel + 1) (nodeIndex :: rest) b =
      if 0 < nodeBoxDist s oct r nodeIndex then
        if (oct.nodes nodeIndex).isLeaf then
          octreeOutsideTrace s oct r fuel rest (nodeBoxOutside s oct r nodeIndex b)
        else
          octreeOutsideTrace s oct r fuel (pushedChildren (oct.nodes nodeIndex) ++ rest)
            (nodeBoxOutside s oct r nodeIndex b)
      else
        octreeOutsideTrace s oct r fuel rest (nodeBoxOutside s oct r nodeIndex b) := rfl

/-- Lockstep characterization of the traversal loop: its result is the
closest-hit fold over the trace of visited triangles, with the `outside`
reference following the box-test trace; the loop returns `none` exactly
when the traces do (fuel exhaustion). -/
theorem octreeLoop_trace (s : ℚ → ℚ) (oct : OctreeDev) (r : Ray) (ro rd : Vec3) :
    ∀ (fuel : ℕ) (stack : List ℤ) (st : OctState),
      octreeLoop s oct r ro rd fuel stack st =
        match octreeVisit s oct r fuel stack,
          octreeOutsideTrace s oct r fuel stack st.outside with
        | some L, some ob =>
          some ⟨(L.map oct.triangles).foldl (triStep s ro rd) st.tri, ob⟩
        | _, _ => none := by
  intro fuel
  induction fuel with
  | zero =>
    intro stack st
    cases stack with
    | nil => rw [octreeLoop_nil, octreeVisit_nil, octreeOutsideTrace_nil]; rfl
    | cons n rest => rw [octreeLoop_zero, octreeVisit_zero, octreeOutsideTrace_zero]
  | succ fuel ih =>
    intro stack st
    cases stack with
    | nil => rw [octreeLoop_nil, octreeVisit_nil, octreeOutsideTrace_nil]; rfl
    | cons n rest =>
      rw [octreeLoop_succ, octreeVisit_succ, octreeOutsideTrace_succ]
      by_cases hdist : 0 < nodeBoxDist s oct r n
      · rw [if_pos hdist, if_pos hdist, if_pos hdist]
        cases hleaf : (oct.nodes n).isLeaf with
        | true =>
          have ht : (true : Bool) = true := rfl
          rw [if_pos ht, if_pos ht, if_pos ht]
          rw [ih rest ⟨((leafRange oct n).map oct.triangles).foldl (triStep s ro rd) st.tri,
            nodeBoxOutside s oct r n st.outside⟩]
          cases hv : octreeVisit s oct r fuel rest with
          | none => rfl
          | some L =>
            cases ho : octreeOutsideTrace s oct r fuel rest
              (nodeBoxOutside s oct r n st.outside) with
            | none => rfl
            | some ob =>
              simp only [Option.map_some']
              rw [List.map_append, List.foldl_append]
        | false =>
          have hf : ¬ ((false : Bool) = true) := Bool.false_ne_true
          rw [if_neg hf, if_neg hf, if_neg hf]
          exact ih (pushedChildren (oct.nodes n) ++ rest)
            ⟨st.tri, nodeBoxOutside s oct r n st.outside⟩
      · rw [if_neg hdist, if_neg hdist, if_neg hdist]
        exact ih rest ⟨st.tri, nodeBoxOutside s oct r n st.outside⟩

/-! ### The capacity-checked stack machine -/

theorem octreeLoopCap_nil (s : ℚ → ℚ) (oct : OctreeDev) (r : Ray) (ro rd : Vec3)
    (cap fuel : ℕ) (st : OctState) :
    octreeLoopCap s oct r ro rd cap fuel [] st = .done st := by
  cases fuel <;> rfl

theorem octreeLoopCap_zero (s : ℚ → ℚ) (oct : OctreeDev) (r : Ray) (ro rd : Vec3)
    (cap : ℕ) (nodeIndex : ℤ) (rest : List ℤ) (st : OctState) :
    octreeLoopCap s oct r ro rd cap 0 (nodeIndex :: rest) st = .fuelOut := rfl

theorem octreeLoopCap_succ (s : ℚ → ℚ) (oct : OctreeDev) (r : Ray) (ro rd : Vec3)
    (cap fuel : ℕ) (nodeIndex : ℤ) (rest : List ℤ) (st : OctState) :
    octreeLoopCap s oct r ro rd cap (fuel + 1) (nodeIndex :: rest) st =
      if 0 < nodeBoxDist s oct r nodeIndex then
        if (oct.nodes nodeIndex).isLeaf then
          octreeLoopCap s oct r ro rd cap fuel rest
            ⟨((leafRange oct nodeIndex).map oct.triangles).foldl (triStep s ro rd) st.tri,
             nodeBoxOutside s oct r nodeIndex st.outside⟩
        else
          match pushChecked cap (childList (oct.nodes nodeIndex)) rest with
          | none => .fault
          | some newStack =>
            octreeLoopCap s oct r ro rd cap fuel newStack
              ⟨st.tri, nodeBoxOutside s oct r nodeIndex st.outside⟩
      else
        octreeLoopCap s oct r ro rd cap fuel rest
          ⟨st.tri, nodeBoxOutside s oct r nodeIndex st.outside⟩ := rfl

theorem octreeMaxStack_nil (s : ℚ → ℚ) (oct : OctreeDev) (r : Ray) (fuel acc : ℕ) :
    octreeMaxStack s oct r fuel [] acc = some acc := by
  cases fuel <;> rfl

theorem octreeMaxStack_zero (s : ℚ → ℚ) (oct : OctreeDev) (r : Ray)
    (nodeIndex : ℤ) (rest : List ℤ) (acc : ℕ) :
    octreeMaxStack s oct r 0 (nodeIndex :: rest) acc = none := rfl

theorem octreeMaxStack_succ (s : ℚ → ℚ) (oct : OctreeDev) (r : Ray)
    (fuel : ℕ) (nodeIndex : ℤ) (rest : List ℤ) (acc : ℕ) :
    octreeMaxStack s oct r (fuel + 1) (nodeIndex :: rest) acc =
      if 0 < nodeBoxDist s oct r nodeIndex then
        if (oct.nodes nodeIndex).isLeaf then
          octreeMaxStack s oct r fuel rest acc
        else
          octreeMaxStack s oct r fuel (pushedChildren (oct.nodes nodeIndex) ++ rest)
            (max acc (pushedChildren (oct.nodes nodeIndex) ++ rest).length)
      else
        octreeMaxStack s oct r fuel rest acc := rfl

theorem pushChecked_of_le (cap : ℕ) :
    ∀ (cs stack : List ℤ), stack.length + cs.length ≤ cap →
      pushChecked cap cs stack = some (cs.reverse ++ stack) := by
  intro cs
  induction cs with
  | nil => intro stack _; simp [pushChecked]
  | cons c cs ih =>
    intro stack hle
    have hlt : stack.length < cap := by
      have : stack.length + 1 ≤ stack.length + (c :: cs).length := by
        simp [List.length_cons]
      omega
    rw [pushChecked, if_pos hlt, ih (c :: stack) (by simp at hle ⊢; omega)]
    simp

theorem octreeMaxStack_ge_acc (s : ℚ → ℚ) (oct : OctreeDev) (r : Ray) :
    ∀ (fuel : ℕ) (stack : List ℤ) (acc m : ℕ),
      octreeMaxStack s oct r fuel stack acc = some m → acc ≤ m := by
  intro fuel
  induction fuel with
  | zero =>
    intro stack acc m h
    cases stack with
    | nil =>
      rw [octreeMaxStack_nil] at h
      exact le_of_eq (Option.some_inj.mp h)
    | cons n rest => rw [octreeMaxStack_zero] at h; exact absurd h (by simp)
  | succ fuel ih =>
    intro stack acc m h
    cases stack with
    | nil =>
      rw [octreeMaxStack_nil] at h
      exact le_of_eq (Option.some_inj.mp h)
    | cons n rest =>
      rw [octreeMaxStack_succ] at h
      by_cases hdist : 0 < nodeBoxDist s oct r n
      · rw [if_pos hdist] at h
        cases hleaf : (oct.nodes n).isLeaf with
        | true =>
          rw [hleaf, if_pos rfl] at h
          exact ih rest acc m h
        | false =>
          rw [hleaf, if_neg Bool.false_ne_true] at h
          have := ih _ _ _ h
          exact le_trans (le_max_left _ _) this
      · rw [if_neg hdist] at h
        exact ih rest acc m h

theorem octreeLoopCap_eq_loop (s : ℚ → ℚ) (oct : OctreeDev) (r : Ray) (ro rd : Vec3)
    (cap : ℕ) :
    ∀ (fuel : ℕ) (stack : List ℤ) (st : OctState) (acc m : ℕ),
      octreeMaxStack s oct r fuel stack acc = some m → m ≤ cap →
      octreeLoopCap s oct r ro rd cap fuel stack st =
        match octreeLoop s oct r ro rd fuel stack st with
        | none => .fuelOut
        | some st2 => .done st2 := by
  intro fuel
  induction fuel with
  | zero =>
    intro stack st acc m _ _
    cases stack with
    | nil => rw [octreeLoopCap_nil, octreeLoop_nil]
    | cons n rest => rw [octreeLoopCap_zero, octreeLoop_zero]
  | succ fuel ih =>
    intro stack st acc m hmax hcap
    cases stack with
    | nil => rw [octreeLoopCap_nil, octreeLoop_nil]
    | cons n rest =>
      rw [octreeLoopCap_succ, octreeLoop_succ]
      rw [octreeMaxStack_succ] at hmax
      by_cases hdist : 0 < nodeBoxDist s oct r n
      · rw [if_pos hdist, if_pos hdist]
        rw [if_pos hdist] at hmax
        cases hleaf : (oct.nodes n).isLeaf with
        | true =>
          rw [hleaf] at hmax
          rw [if_pos rfl] at hmax
          have ht : (true : Bool) = true := rfl
          rw [if_pos ht, if_pos ht]
          exact ih rest _ acc m hmax hcap
        | false =>
          rw [hleaf] at hmax
          rw [if_neg Bool.false_ne_true] at hmax
          have hf : ¬ ((false : Bool) = true) := Bool.false_ne_true
          rw [if_neg hf, if_neg hf]
          have hacc := octreeMaxStack_ge_acc s oct r _ _ _ _ hmax
          have hlen : rest.length + (childList (oct.nodes n)).length ≤ cap := by
            have h1 : (pushedChildren (oct.nodes n) ++ rest).length ≤ m :=
              le_trans (le_max_right _ _) hacc
            have h2 : (pushedChildren (oct.nodes n) ++ rest).length =
                rest.length + (childList (oct.nodes n)).length := by
              simp [pushedChildren, List.length_append, List.length_reverse]
              omega
            omega
          rw [pushChecked_of_le cap (childList (oct.nodes n)) rest hlen]
          have hns : (childList (oct.nodes n)).reverse ++ rest =
              pushedChildren (oct.nodes n) ++ rest := rfl
          rw [hns]
          exact ih _ _ _ m hmax hcap
      · rw [if_neg hdist, if_neg hdist]
        rw [if_neg hdist] at hmax
        exact ih rest _ acc m hmax hcap

/-! ### Concrete fixtures used by the witness theorems -/

/-- A non-negative stand-in for `sqrtf` (IEEE `sqrtf` is non-negative on
non-negative inputs, and these fixtures only ever take it there). -/
def sNN : ℚ → ℚ := fun x => if x < 0 then 0 else x

theorem sNN_nonneg : ∀ x : ℚ, 0 ≤ sNN x := by
  intro x
  unfold sNN
  by_cases h : x < 0
  · rw [if_pos h]
  · rw [if_neg h]
    exact not_lt.mp h

/-- Identity-placed primitive. -/
def geomId : Geom := ⟨idMat4, idMat4, idMat4⟩

/-- A ray from `(0,0,-5)` along `+z`. -/
def rayZ : Ray := ⟨⟨0, 0, -5⟩, ⟨0, 0, 1⟩⟩

/-- A ray from the origin along `+z`. -/
def rayO : Ray := ⟨⟨0, 0, 0⟩, ⟨0, 0, 1⟩⟩

/-- A ray from the origin along `+x`. -/
def rayX : Ray := ⟨⟨0, 0, 0⟩, ⟨1, 0, 0⟩⟩

/-- Arbitrary initial out-parameter values. -/
def hit0 : HitOut := ⟨zero3, zero3, false⟩

/-- One-triangle mesh: vertices `(0,0,1), (0,1,1), (1,0,1)`, identity
placement. -/
def mesh1 : Mesh :=
  ⟨idMat4, idMat4, idMat4,
   fun i => if i = 0 then 0 else if i = 1 then 0 else if i = 2 then 1
     else if i = 3 then 0 else if i = 4 then 1 else if i = 5 then 1
     else if i = 6 then 1 else if i = 7 then 0 else if i = 8 then 1 else 0,
   fun i => if i = 0 then 0 else if i = 1 then 1 else if i = 2 then 2 else 0,
   3⟩

/-- Single-leaf octree holding the same triangle as `mesh1`, with the
identity bounding box. -/
def oct1 : OctreeDev :=
  ⟨idMat4, idMat4, idMat4, 0,
   fun _ => ⟨true, fun _ => -1⟩,
   fun _ => geomId,
   fun i => if i ≤ 0 then 0 else 1,
   fun _ => ⟨⟨0, 0, 1⟩, ⟨0, 1, 1⟩, ⟨1, 0, 1⟩⟩⟩

/-! ### C3: box result policy -/

/-- The slab state the box test computes for a given box and world ray. -/
def boxSlab (s : ℚ → ℚ) (box : Geom) (r : Ray) : SlabState :=
  slabRun (localOrigin box.inverseTransform r) (localDirection s box.inverseTransform r)

/-- C3: the box test reports a hit (non-`-1` result) exactly when the slab
parameters satisfy `tmax >= tmin && tmax > 0` (IEEE comparisons on the
extended values, `tmin` being the running maximum of positive near
parameters, `tmax` the running minimum of far parameters — see `slabAxis`);
on a hit with `tmin <= 0` it reports `outside = false` and the far
intersection `(tmax, tmax_n)`, otherwise `outside = true` and the near
intersection; on a miss it returns `-1`. -/
theorem boxResultPolicy (s : ℚ → ℚ) (box : Geom) (r : Ray) (st : HitOut)
    (Hs : ∀ x, 0 ≤ s x) :
    ((boxIntersectionTest s box r st).1 = -1 ↔
      ¬ ((boxSlab s box r).tmin.le (boxSlab s box r).tmax = true ∧
         (ExtQ.fin 0).lt (boxSlab s box r).tmax = true)) ∧
    ((boxSlab s box r).tmin.le (boxSlab s box r).tmax = true →
     (ExtQ.fin 0).lt (boxSlab s box r).tmax = true →
      ((boxSlab s box r).tmin.le (ExtQ.fin 0) = true →
        (boxIntersectionTest s box r st).2.outside = false ∧
        (boxIntersectionTest s box r st).2.point =
          multiplyMV box.transform (toVec4 (getPointOnRay s
            ⟨localOrigin box.inverseTransform r, localDirection s box.inverseTransform r⟩
            (boxSlab s box r).tmax.toRat) 1) ∧
        (boxIntersectionTest s box r st).2.normal =
          normalizeS s (multiplyMV box.invTranspose (toVec4 (boxSlab s box r).tmax_n 0))) ∧
      (¬ ((boxSlab s box r).tmin.le (ExtQ.fin 0) = true) →
        (boxIntersectionTest s box r st).2.outside = true ∧
        (boxIntersectionTest s box r st).2.point =
          multiplyMV box.transform (toVec4 (getPointOnRay s
            ⟨localOrigin box.inverseTransform r, localDirection s box.inverseTransform r⟩
            (boxSlab s box r).tmin.toRat) 1) ∧
        (boxIntersectionTest s box r st).2.normal =
          normalizeS s (multiplyMV box.invTranspose (toVec4 (boxSlab s box r).tmin_n 0)))) := by
  have hunf : boxIntersectionTest s box r st =
      if (boxSlab s box r).tmin.le (boxSlab s box r).tmax = true ∧
         (ExtQ.fin 0).lt (boxSlab s box r).tmax = true then
        ((lengthS s (r.origin - multiplyMV box.transform (toVec4 (getPointOnRay s
            ⟨localOrigin box.inverseTransform r, localDirection s box.inverseTransform r⟩
            (if (boxSlab s box r).tmin.le (ExtQ.fin 0) = true then (boxSlab s box r).tmax
             else (boxSlab s box r).tmin).toRat) 1))),
          ⟨multiplyMV box.transform (toVec4 (getPointOnRay s
            ⟨localOrigin box.inverseTransform r, localDirection s box.inverseTransform r⟩
            (if (boxSlab s box r).tmin.le (ExtQ.fin 0) = true then (boxSlab s box r).tmax
             else (boxSlab s box r).tmin).toRat) 1),
           normalizeS s (multiplyMV box.invTranspose (toVec4
            (if (boxSlab s box r).tmin.le (ExtQ.fin 0) = true then (boxSlab s box r).tmax_n
             else (boxSlab s box r).tmin_n) 0)),
           (if (boxSlab s box r).tmin.le (ExtQ.fin 0) = true then false else true)⟩)
      else (-1, st) := rfl
  by_cases hcond : (boxSlab s box r).tmin.le (boxSlab s box r).tmax = true ∧
      (ExtQ.fin 0).lt (boxSlab s box r).tmax = true
  · rw [hunf, if_pos hcond]
    constructor
    · simp only [iff_iff_implies_and_implies]
      constructor
      · intro hres
        have hge : (0 : ℚ) ≤ lengthS s (r.origin - multiplyMV box.transform (toVec4
            (getPointOnRay s ⟨localOrigin box.inverseTransform r,
              localDirection s box.inverseTransform r⟩
            (if (boxSlab s box r).tmin.le (ExtQ.fin 0) = true then (boxSlab s box r).tmax
             else (boxSlab s box r).tmin).toRat) 1)) := Hs _
        rw [hres] at hge
        norm_num at hge
      · intro hc; exact absurd hcond hc
    · intro _ _
      constructor
      · intro hin
        rw [if_pos hin, if_pos hin, if_pos hin]
        exact ⟨rfl, rfl, rfl⟩
      · intro hout
        rw [if_neg hout, if_neg hout, if_neg hout]
        exact ⟨rfl, rfl, rfl⟩
  · rw [hunf, if_neg hcond]
    constructor
    · exact ⟨fun _ => hcond, fun _ => rfl⟩
    · intro h1 h2; exact absurd ⟨h1, h2⟩ hcond

/-- Witness for C3 at the identity box, the ray `(0,0,-5) → +z` and `sNN`. -/
theorem boxResultPolicy_witness :
    (∀ x : ℚ, 0 ≤ sNN x) ∧
    (((boxIntersectionTest sNN geomId rayZ hit0).1 = -1 ↔
      ¬ ((boxSlab sNN geomId rayZ).tmin.le (boxSlab sNN geomId rayZ).tmax = true ∧
         (ExtQ.fin 0).lt (boxSlab sNN geomId rayZ).tmax = true)) ∧
    ((boxSlab sNN geomId rayZ).tmin.le (boxSlab sNN geomId rayZ).tmax = true →
     (ExtQ.fin 0).lt (boxSlab sNN geomId rayZ).tmax = true →
      ((boxSlab sNN geomId rayZ).tmin.le (ExtQ.fin 0) = true →
        (boxIntersectionTest sNN geomId rayZ hit0).2.outside = false ∧
        (boxIntersectionTest sNN geomId rayZ hit0).2.point =
          multiplyMV geomId.transform (toVec4 (getPointOnRay sNN
            ⟨localOrigin geomId.inverseTransform rayZ, localDirection sNN geomId.inverseTransform rayZ⟩
            (boxSlab sNN geomId rayZ).tmax.toRat) 1) ∧
        (boxIntersectionTest sNN geomId rayZ hit0).2.normal =
          normalizeS sNN (multiplyMV geomId.invTranspose
            (toVec4 (boxSlab sNN geomId rayZ).tmax_n 0))) ∧
      (¬ ((boxSlab sNN geomId rayZ).tmin.le (ExtQ.fin 0) = true) →
        (boxIntersectionTest sNN geomId rayZ hit0).2.outside = true ∧
        (boxIntersectionTest sNN geomId rayZ hit0).2.point =
          multiplyMV geomId.transform (toVec4 (getPointOnRay sNN
            ⟨localOrigin geomId.inverseTransform rayZ, localDirection sNN geomId.inverseTransform rayZ⟩
            (boxSlab sNN geomId rayZ).tmin.toRat) 1) ∧
        (boxIntersectionTest sNN geomId rayZ hit0).2.normal =
          normalizeS sNN (multiplyMV geomId.invTranspose
            (toVec4 (boxSlab sNN geomId rayZ).tmin_n 0))))) :=
  ⟨sNN_nonneg, boxResultPolicy sNN geomId rayZ hit0 sNN_nonneg⟩

/-! ### C4: sphere result policy -/

/-- `vDotDirection` of the sphere test: `dot(ro, rd)` of the local ray. -/
def sphereVDot (s : ℚ → ℚ) (sphere : Geom) (r : Ray) : ℚ :=
  dot3 (localOrigin sphere.inverseTransform r) (localDirection s sphere.inverseTransform r)

/-- The sphere test's discriminant `b^2 - (|ro|^2 - r^2)`. -/
def sphereRadicand (s : ℚ → ℚ) (sphere : Geom) (r : Ray) : ℚ :=
  sphereVDot s sphere r * sphereVDot s sphere r -
    (dot3 (localOrigin sphere.inverseTransform r) (localOrigin sphere.inverseTransform r) -
      (1 / 2 : ℚ) ^ 2)

/-- The root `-b + sqrt(radicand)`. -/
def sphereT1 (s : ℚ → ℚ) (sphere : Geom) (r : Ray) : ℚ :=
  -(sphereVDot s sphere r) + s (sphereRadicand s sphere r)

/-- The root `-b - sqrt(radicand)`. -/
def sphereT2 (s : ℚ → ℚ) (sphere : Geom) (r : Ray) : ℚ :=
  -(sphereVDot s sphere r) - s (sphereRadicand s sphere r)

/-- C4: the sphere test returns `-1` when the discriminant
`b^2 - (|ro|^2 - r^2)` is negative or both roots are negative; with both
roots positive it sets `outside = true` and evaluates the hit at the
smaller root; with roots of mixed sign it sets `outside = false`, uses the
larger root, and negates the reported (outward local-point-derived)
normal. -/
theorem sphereResultPolicy (s : ℚ → ℚ) (sphere : Geom) (r : Ray) (st : HitOut) :
    (sphereRadicand s sphere r < 0 → sphereIntersectionTest s sphere r st = (-1, st)) ∧
    (sphereT1 s sphere r < 0 ∧ sphereT2 s sphere r < 0 →
      sphereIntersectionTest s sphere r st = (-1, st)) ∧
    (¬ sphereRadicand s sphere r < 0 → 0 < sphereT1 s sphere r ∧ 0 < sphereT2 s sphere r →
      (sphereIntersectionTest s sphere r st).2.outside = true ∧
      (sphereIntersectionTest s sphere r st).2.point =
        multiplyMV sphere.transform (toVec4 (getPointOnRay s
          ⟨localOrigin sphere.inverseTransform r, localDirection s sphere.inverseTransform r⟩
          (min (sphereT1 s sphere r) (sphereT2 s sphere r))) 1) ∧
      (sphereIntersectionTest s sphere r st).2.normal =
        normalizeS s (multiplyMV sphere.invTranspose (toVec4 (getPointOnRay s
          ⟨localOrigin sphere.inverseTransform r, localDirection s sphere.inverseTransform r⟩
          (min (sphereT1 s sphere r) (sphereT2 s sphere r))) 0))) ∧
    (¬ sphereRadicand s sphere r < 0 →
      (sphereT1 s sphere r < 0 ∧ 0 < sphereT2 s sphere r) ∨
      (sphereT2 s sphere r < 0 ∧ 0 < sphereT1 s sphere r) →
      (sphereIntersectionTest s sphere r st).2.outside = false ∧
      (sphereIntersectionTest s sphere r st).2.point =
        multiplyMV sphere.transform (toVec4 (getPointOnRay s
          ⟨localOrigin sphere.inverseTransform r, localDirection s sphere.inverseTransform r⟩
          (max (sphereT1 s sphere r) (sphereT2 s sphere r))) 1) ∧
      (sphereIntersectionTest s sphere r st).2.normal =
        -(normalizeS s (multiplyMV sphere.invTranspose (toVec4 (getPointOnRay s
          ⟨localOrigin sphere.inverseTransform r, localDirection s sphere.inverseTransform r⟩
          (max (sphereT1 s sphere r) (sphereT2 s sphere r))) 0)))) := by
  have hunf : sphereIntersectionTest s sphere r st =
      if sphereRadicand s sphere r < 0 then (-1, st)
      else if sphereT1 s sphere r < 0 ∧ sphereT2 s sphere r < 0 then (-1, st)
      else
        ((lengthS s (r.origin - multiplyMV sphere.transform (toVec4 (getPointOnRay s
            ⟨localOrigin sphere.inverseTransform r, localDirection s sphere.inverseTransform r⟩
            (if 0 < sphereT1 s sphere r ∧ 0 < sphereT2 s sphere r then
              min (sphereT1 s sphere r) (sphereT2 s sphere r)
             else max (sphereT1 s sphere r) (sphereT2 s sphere r))) 1))),
         ⟨multiplyMV sphere.transform (toVec4 (getPointOnRay s
            ⟨localOrigin sphere.inverseTransform r, localDirection s sphere.inverseTransform r⟩
            (if 0 < sphereT1 s sphere r ∧ 0 < sphereT2 s sphere r then
              min (sphereT1 s sphere r) (sphereT2 s sphere r)
             else max (sphereT1 s sphere r) (sphereT2 s sphere r))) 1),
          (if (if 0 < sphereT1 s sphere r ∧ 0 < sphereT2 s sphere r then true else false) = true
           then normalizeS s (multiplyMV sphere.invTranspose (toVec4 (getPointOnRay s
            ⟨localOrigin sphere.inverseTransform r, localDirection s sphere.inverseTransform r⟩
            (if 0 < sphereT1 s sphere r ∧ 0 < sphereT2 s sphere r then
              min (sphereT1 s sphere r) (sphereT2 s sphere r)
             else max (sphereT1 s sphere r) (sphereT2 s sphere r))) 0))
           else -(normalizeS s (multiplyMV sphere.invTranspose (toVec4 (getPointOnRay s
            ⟨localOrigin sphere.inverseTransform r, localDirection s sphere.inverseTransform r⟩
            (if 0 < sphereT1 s sphere r ∧ 0 < sphereT2 s sphere r then
              min (sphereT1 s sphere r) (sphereT2 s sphere r)
             else max (sphereT1 s sphere r) (sphereT2 s sphere r))) 0)))),
          (if 0 < sphereT1 s sphere r ∧ 0 < sphereT2 s sphere r then true else false)⟩) := rfl
  refine ⟨?_, ?_, ?_, ?_⟩
  · intro hr
    rw [hunf, if_pos hr]
  · intro hts
    rw [hunf]
    by_cases hr : sphereRadicand s sphere r < 0
    · rw [if_pos hr]
    · rw [if_neg hr, if_pos hts]
  · intro hr hpos
    have hneg : ¬ (sphereT1 s sphere r < 0 ∧ sphereT2 s sphere r < 0) := by
      rintro ⟨h1, _⟩
      exact absurd hpos.1 (not_lt.mpr (le_of_lt h1))
    rw [hunf, if_neg hr, if_neg hneg]
    simp only [if_pos hpos]
    refine ⟨?_, ?_, ?_⟩ <;> trivial
  · intro hr hmix
    have hneg : ¬ (sphereT1 s sphere r < 0 ∧ sphereT2 s sphere r < 0) := by
      rintro ⟨h1, h2⟩
      rcases hmix with ⟨_, hp⟩ | ⟨_, hp⟩
      · exact absurd hp (not_lt.mpr (le_of_lt h2))
      · exact absurd hp (not_lt.mpr (le_of_lt h1))
    have hnpos : ¬ (0 < sphereT1 s sphere r ∧ 0 < sphereT2 s sphere r) := by
      rintro ⟨hp1, hp2⟩
      rcases hmix with ⟨hn, _⟩ | ⟨hn, _⟩
      · exact absurd hp1 (not_lt.mpr (le_of_lt hn))
      · exact absurd hp2 (not_lt.mpr (le_of_lt hn))
    rw [hunf, if_neg hr, if_neg hneg]
    simp only [if_neg hnpos]
    refine ⟨?_, ?_, ?_⟩ <;> trivial

theorem sphereWitnessEvalRadicand : sphereRadicand sNN geomId rayX = 1 / 4 := by
  norm_num [sphereRadicand, sphereVDot, localOrigin, localDirection, geomId, idMat4,
    rayX, multiplyMV, toVec4, normalizeS, lengthS, dot3, sNN, Vec3.smul_mk]

theorem sphereWitnessRadicand : ¬ sphereRadicand sNN geomId rayX < 0 := by
  rw [sphereWitnessEvalRadicand]; norm_num

theorem sphereWitnessRoots :
    sphereT2 sNN geomId rayX < 0 ∧ 0 < sphereT1 sNN geomId rayX := by
  have hv : sphereVDot sNN geomId rayX = 0 := by
    norm_num [sphereVDot, localOrigin, localDirection, geomId, idMat4,
      rayX, multiplyMV, toVec4, normalizeS, lengthS, dot3, sNN, Vec3.smul_mk]
  constructor
  · rw [sphereT2, hv, sphereWitnessEvalRadicand]
    norm_num [sNN]
  · rw [sphereT1, hv, sphereWitnessEvalRadicand]
    norm_num [sNN]

/-- Witness for C4 at the identity sphere with the ray starting inside
(origin, direction `+x`): the roots have mixed sign. -/
theorem sphereResultPolicy_witness :
    (¬ sphereRadicand sNN geomId rayX < 0 ∧
      (sphereT2 sNN geomId rayX < 0 ∧ 0 < sphereT1 sNN geomId rayX)) ∧
    ((sphereIntersectionTest sNN geomId rayX hit0).2.outside = false ∧
     (sphereIntersectionTest sNN geomId rayX hit0).2.point =
       multiplyMV geomId.transform (toVec4 (getPointOnRay sNN
         ⟨localOrigin geomId.inverseTransform rayX, localDirection sNN geomId.inverseTransform rayX⟩
         (max (sphereT1 sNN geomId rayX) (sphereT2 sNN geomId rayX))) 1) ∧
     (sphereIntersectionTest sNN geomId rayX hit0).2.normal =
       -(normalizeS sNN (multiplyMV geomId.invTranspose (toVec4 (getPointOnRay sNN
         ⟨localOrigin geomId.inverseTransform rayX, localDirection sNN geomId.inverseTransform rayX⟩
         (max (sphereT1 sNN geomId rayX) (sphereT2 sNN geomId rayX))) 0)))) :=
  ⟨⟨sphereWitnessRadicand, sphereWitnessRoots⟩,
   (sphereResultPolicy sNN geomId rayX hit0).2.2.2 sphereWitnessRadicand
     (Or.inr sphereWitnessRoots)⟩

theorem meshIntersectionTest_eq (s : ℚ → ℚ) (mesh : Mesh) (r : Ray) (st : HitOut)
    (Hs : ∀ x, 0 ≤ s x) :
    meshIntersectionTest s mesh r st =
      match hitsOf s (localOrigin mesh.inverseTransform r)
          (localDirection s mesh.inverseTransform r) (meshLocalTris mesh) with
      | [] => (-1, ⟨st.point, st.normal, st.outside⟩)
      | h :: hs => facingPost s mesh.transform mesh.invTranspose r
          (localDirection s mesh.inverseTransform r) (tupleState (runMinAcc h hs)) := by
  have hunf : meshIntersectionTest s mesh r st =
      (if ((meshLocalTris mesh).foldl (triStep s (localOrigin mesh.inverseTransform r)
            (localDirection s mesh.inverseTransform r)) ⟨-1, st.point, st.normal⟩).t < 0 then
        (-1, ⟨((meshLocalTris mesh).foldl (triStep s (localOrigin mesh.inverseTransform r)
            (localDirection s mesh.inverseTransform r)) ⟨-1, st.point, st.normal⟩).point,
          ((meshLocalTris mesh).foldl (triStep s (localOrigin mesh.inverseTransform r)
            (localDirection s mesh.inverseTransform r)) ⟨-1, st.point, st.normal⟩).normal,
          st.outside⟩)
      else
        facingPost s mesh.transform mesh.invTranspose r
          (localDirection s mesh.inverseTransform r)
          ((meshLocalTris mesh).foldl (triStep s (localOrigin mesh.inverseTransform r)
            (localDirection s mesh.inverseTransform r)) ⟨-1, st.point, st.normal⟩)) := rfl
  have hfold := foldl_triStep_start s (localOrigin mesh.inverseTransform r)
    (localDirection s mesh.inverseTransform r) (meshLocalTris mesh)
    ⟨-1, st.point, st.normal⟩
    (hitsOf_fst_nonneg s _ _ _ Hs) (by norm_num)
  rw [hunf, hfold]
  cases hl : hitsOf s (localOrigin mesh.inverseTransform r)
      (localDirection s mesh.inverseTransform r) (meshLocalTris mesh) with
  | nil => norm_num
  | cons h hs =>
    have hmin := runMinAcc_minChoice hs h
    have hnonneg : 0 ≤ (runMinAcc h hs).1 := by
      refine hitsOf_fst_nonneg s (localOrigin mesh.inverseTransform r)
        (localDirection s mesh.inverseTransform r) (meshLocalTris mesh) Hs
        (runMinAcc h hs) ?_
      rw [hl]
      exact hmin.1
    have hnot : ¬ (tupleState (runMinAcc h hs)).t < 0 := not_lt.mpr hnonneg
    rw [if_neg hnot]

theorem mesh1_ro : localOrigin mesh1.inverseTransform rayO = ⟨0, 0, 0⟩ := by
  norm_num [localOrigin, mesh1, rayO, multiplyMV, toVec4, idMat4]

theorem mesh1_rd : localDirection sNN mesh1.inverseTransform rayO = ⟨0, 0, 1⟩ := by
  norm_num [localDirection, mesh1, rayO, multiplyMV, toVec4, idMat4, normalizeS,
    lengthS, dot3, sNN, Vec3.smul_mk]

theorem mesh1_tris : meshLocalTris mesh1 = [⟨⟨0, 0, 1⟩, ⟨0, 1, 1⟩, ⟨1, 0, 1⟩⟩] := by
  norm_num [meshLocalTris, meshTriIndices, mesh1, List.range_succ, meshTriangle, meshVert]

theorem mesh1_irt : intersectRayTriangle ⟨0, 0, 0⟩ ⟨0, 0, 1⟩ ⟨0, 0, 1⟩ ⟨0, 1, 1⟩ ⟨1, 0, 1⟩ =
    some ⟨0, 0, 1⟩ := by
  norm_num [intersectRayTriangle, cross3, dot3, glmEpsilon, Vec3.sub_mk]

theorem mesh1_hit : hitOf sNN ⟨0, 0, 0⟩ ⟨0, 0, 1⟩ ⟨⟨0, 0, 1⟩, ⟨0, 1, 1⟩, ⟨1, 0, 1⟩⟩ =
    some (1, ⟨0, 0, 1⟩, ⟨0, 0, -1⟩) := by
  rw [hitOf, mesh1_irt]
  norm_num [lengthS, dot3, cross3, normalizeS, sNN, Vec3.sub_mk, Vec3.add_mk, Vec3.smul_mk]

theorem mesh1_hits : hitsOf sNN (localOrigin mesh1.inverseTransform rayO)
    (localDirection sNN mesh1.inverseTransform rayO) (meshLocalTris mesh1) =
    [(1, ⟨0, 0, 1⟩, ⟨0, 0, -1⟩)] := by
  rw [mesh1_ro, mesh1_rd, mesh1_tris, hitsOf, List.filterMap_cons]
  rw [mesh1_hit]
  rfl

theorem mesh1_result : meshIntersectionTest sNN mesh1 rayO hit0 =
    (1, ⟨⟨0, 0, 1⟩, ⟨0, 0, -1⟩, true⟩) := by
  rw [meshIntersectionTest_eq sNN mesh1 rayO hit0 sNN_nonneg, mesh1_hits]
  show facingPost sNN mesh1.transform mesh1.invTranspose rayO
    (localDirection sNN mesh1.inverseTransform rayO)
    (tupleState (runMinAcc (1, ⟨0, 0, 1⟩, ⟨0, 0, -1⟩) [])) = _
  rw [mesh1_rd]
  norm_num [facingPost, tupleState, runMinAcc, mesh1, multiplyMV, toVec4, idMat4,
    normalizeS, lengthS, dot3, sNN, rayO, Vec3.smul_mk, Vec3.sub_mk, Vec3.neg_mk]

/-! ### Unfolding equations for the box and sphere tests, and the octree
characterization -/

theorem boxIntersectionTest_unfold (s : ℚ → ℚ) (box : Geom) (r : Ray) (st : HitOut) :
    boxIntersectionTest s box r st =
      if (boxSlab s box r).tmin.le (boxSlab s box r).tmax = true ∧
         (ExtQ.fin 0).lt (boxSlab s box r).tmax = true then
        ((lengthS s (r.origin - multiplyMV box.transform (toVec4 (getPointOnRay s
            ⟨localOrigin box.inverseTransform r, localDirection s box.inverseTransform r⟩
            (if (boxSlab s box r).tmin.le (ExtQ.fin 0) = true then (boxSlab s box r).tmax
             else (boxSlab s box r).tmin).toRat) 1))),
          ⟨multiplyMV box.transform (toVec4 (getPointOnRay s
            ⟨localOrigin box.inverseTransform r, localDirection s box.inverseTransform r⟩
            (if (boxSlab s box r).tmin.le (ExtQ.fin 0) = true then (boxSlab s box r).tmax
             else (boxSlab s box r).tmin).toRat) 1),
           normalizeS s (multiplyMV box.invTranspose (toVec4
            (if (boxSlab s box r).tmin.le (ExtQ.fin 0) = true then (boxSlab s box r).tmax_n
             else (boxSlab s box r).tmin_n) 0)),
           (if (boxSlab s box r).tmin.le (ExtQ.fin 0) = true then false else true)⟩)
      else (-1, st) := rfl

theorem sphereIntersectionTest_unfold (s : ℚ → ℚ) (sphere : Geom) (r : Ray) (st : HitOut) :
    sphereIntersectionTest s sphere r st =
      if sphereRadicand s sphere r < 0 then (-1, st)
      else if sphereT1 s sphere r < 0 ∧ sphereT2 s sphere r < 0 then (-1, st)
      else
        ((lengthS s (r.origin - multiplyMV sphere.transform (toVec4 (getPointOnRay s
            ⟨localOrigin sphere.inverseTransform r, localDirection s sphere.inverseTransform r⟩
            (if 0 < sphereT1 s sphere r ∧ 0 < sphereT2 s sphere r then
              min (sphereT1 s sphere r) (sphereT2 s sphere r)
             else max (sphereT1 s sphere r) (sphereT2 s sphere r))) 1))),
         ⟨multiplyMV sphere.transform (toVec4 (getPointOnRay s
            ⟨localOrigin sphere.inverseTransform r, localDirection s sphere.inverseTransform r⟩
            (if 0 < sphereT1 s sphere r ∧ 0 < sphereT2 s sphere r then
              min (sphereT1 s sphere r) (sphereT2 s sphere r)
             else max (sphereT1 s sphere r) (sphereT2 s sphere r))) 1),
          (if (if 0 < sphereT1 s sphere r ∧ 0 < sphereT2 s sphere r then true else false) = true
           then normalizeS s (multiplyMV sphere.invTranspose (toVec4 (getPointOnRay s
            ⟨localOrigin sphere.inverseTransform r, localDirection s sphere.inverseTransform r⟩
            (if 0 < sphereT1 s sphere r ∧ 0 < sphereT2 s sphere r then
              min (sphereT1 s sphere r) (sphereT2 s sphere r)
             else max (sphereT1 s sphere r) (sphereT2 s sphere r))) 0))
           else -(normalizeS s (multiplyMV sphere.invTranspose (toVec4 (getPointOnRay s
            ⟨localOrigin sphere.inverseTransform r, localDirection s sphere.inverseTransform r⟩
            (if 0 < sphereT1 s sphere r ∧ 0 < sphereT2 s sphere r then
              min (sphereT1 s sphere r) (sphereT2 s sphere r)
             else max (sphereT1 s sphere r) (sphereT2 s sphere r))) 0)))),
          (if 0 < sphereT1 s sphere r ∧ 0 < sphereT2 s sphere r then true else false)⟩) := rfl

/-- The full octree test as a function of the two traversal traces. -/
theorem octreeTest_eq (s : ℚ → ℚ) (fuel : ℕ) (oct : OctreeDev) (r : Ray) (st : HitOut) :
    octreeIntersectionTest s fuel oct r st =
      match octreeVisit s oct r fuel [oct.root],
        octreeOutsideTrace s oct r fuel [oct.root] st.outside with
      | some L, some ob =>
        some (if ((L.map oct.triangles).foldl (triStep s (localOrigin oct.inverseTransform r)
            (localDirection s oct.inverseTransform r)) ⟨-1, st.point, st.normal⟩).t < 0 then
          (-1, ⟨((L.map oct.triangles).foldl (triStep s (localOrigin oct.inverseTransform r)
            (localDirection s oct.inverseTransform r)) ⟨-1, st.point, st.normal⟩).point,
           ((L.map oct.triangles).foldl (triStep s (localOrigin oct.inverseTransform r)
            (localDirection s oct.inverseTransform r)) ⟨-1, st.point, st.normal⟩).normal, ob⟩)
         else facingPost s oct.transform oct.invTranspose r
           (localDirection s oct.inverseTransform r)
           ((L.map oct.triangles).foldl (triStep s (localOrigin oct.inverseTransform r)
            (localDirection s oct.inverseTransform r)) ⟨-1, st.point, st.normal⟩))
      | _, _ => none := by
  have hunf : octreeIntersectionTest s fuel oct r st =
      (match octreeLoop s oct r (localOrigin oct.inverseTransform r)
          (localDirection s oct.inverseTransform r) fuel [oct.root]
          ⟨⟨-1, st.point, st.normal⟩, st.outside⟩ with
       | none => none
       | some fin =>
         if fin.tri.t < 0 then some (-1, ⟨fin.tri.point, fin.tri.normal, fin.outside⟩)
         else some (facingPost s oct.transform oct.invTranspose r
           (localDirection s oct.inverseTransform r) fin.tri)) := rfl
  rw [hunf, octreeLoop_trace s oct r (localOrigin oct.inverseTransform r)
    (localDirection s oct.inverseTransform r) fuel [oct.root]
    ⟨⟨-1, st.point, st.normal⟩, st.outside⟩]
  cases octreeVisit s oct r fuel [oct.root] with
  | none => rfl
  | some L =>
    cases octreeOutsideTrace s oct r fuel [oct.root] st.outside with
    | none => rfl
    | some ob =>
      dsimp only
      by_cases hc : ((L.map oct.triangles).foldl (triStep s
          (localOrigin oct.inverseTransform r)
          (localDirection s oct.inverseTransform r)) ⟨-1, st.point, st.normal⟩).t < 0
      · simp only [if_pos hc]
      · simp only [if_neg hc]

/-- The two traversal traces run out of fuel simultaneously. -/
theorem octreeTrace_some_iff (s : ℚ → ℚ) (oct : OctreeDev) (r : Ray) :
    ∀ (fuel : ℕ) (stack : List ℤ) (b : Bool),
      (octreeOutsideTrace s oct r fuel stack b).isSome =
        (octreeVisit s oct r fuel stack).isSome := by
  intro fuel
  induction fuel with
  | zero =>
    intro stack b
    cases stack with
    | nil => rw [octreeVisit_nil, octreeOutsideTrace_nil]; rfl
    | cons n rest => rw [octreeVisit_zero, octreeOutsideTrace_zero]; rfl
  | succ fuel ih =>
    intro stack b
    cases stack with
    | nil => rw [octreeVisit_nil, octreeOutsideTrace_nil]; rfl
    | cons n rest =>
      rw [octreeVisit_succ, octreeOutsideTrace_succ]
      by_cases hdist : 0 < nodeBoxDist s oct r n
      · rw [if_pos hdist, if_pos hdist]
        cases hleaf : (oct.nodes n).isLeaf with
        | true =>
          have ht : (true : Bool) = true := rfl
          rw [if_pos ht, if_pos ht, ih rest (nodeBoxOutside s oct r n b)]
          cases octreeVisit s oct r fuel rest <;> rfl
        | false =>
          have hf : ¬ ((false : Bool) = true) := Bool.false_ne_true
          rw [if_neg hf, if_neg hf]
          exact ih _ _
      · rw [if_neg hdist, if_neg hdist]
        exact ih rest _

/-- C6: the octree test pushes the root and runs the stack loop in which
each popped node's bounding box is tested with the original untransformed
world ray (`nodeBoxDist`); its result is exactly the closest-hit fold of
the local ray over the trace of `octreeVisit` — which contributes nothing
for a node whose box test is `≤ 0`, the `[dataStarts[i], dataStarts[i+1])`
triangle range for a hit leaf, and the non-sentinel children (pushed `0..7`)
for a hit internal node, and which does not depend on the running
closest-hit state, so no subtree is skipped because a closer hit is already
known. -/
theorem octreeTraversalSpec (s : ℚ → ℚ) (fuel : ℕ) (oct : OctreeDev) (r : Ray)
    (st : HitOut) :
    octreeIntersectionTest s fuel oct r st =
      match octreeVisit s oct r fuel [oct.root],
        octreeOutsideTrace s oct r fuel [oct.root] st.outside with
      | some L, some ob =>
        some (if ((L.map oct.triangles).foldl (triStep s (localOrigin oct.inverseTransform r)
            (localDirection s oct.inverseTransform r)) ⟨-1, st.point, st.normal⟩).t < 0 then
          (-1, ⟨((L.map oct.triangles).foldl (triStep s (localOrigin oct.inverseTransform r)
            (localDirection s oct.inverseTransform r)) ⟨-1, st.point, st.normal⟩).point,
           ((L.map oct.triangles).foldl (triStep s (localOrigin oct.inverseTransform r)
            (localDirection s oct.inverseTransform r)) ⟨-1, st.point, st.normal⟩).normal, ob⟩)
         else facingPost s oct.transform oct.invTranspose r
           (localDirection s oct.inverseTransform r)
           ((L.map oct.triangles).foldl (triStep s (localOrigin oct.inverseTransform r)
            (localDirection s oct.inverseTransform r)) ⟨-1, st.point, st.normal⟩))
      | _, _ => none :=
  octreeTest_eq s fuel oct r st

/-! ### C2: the epsilon-biased point-at-parameter routine -/

/-- C2 counterexample: for the one-triangle mesh `mesh1` (identity
transform, so world = local) and the ray from the origin along `+z`, the
mesh test hits (result `1 ≥ 0`) but the reported intersection point is the
exact barycentric triangle point `(0,0,1)`, not the local ray evaluated at
the epsilon-biased parameter `t - 1e-4` — the mesh (and octree) tests do
not use `getPointOnRay`. -/
theorem pointBiasCounterexample :
    0 ≤ (meshIntersectionTest sNN mesh1 rayO hit0).1 ∧
    (meshIntersectionTest sNN mesh1 rayO hit0).2.point = ⟨0, 0, 1⟩ ∧
    (meshIntersectionTest sNN mesh1 rayO hit0).2.point ≠
      getPointOnRay sNN ⟨localOrigin mesh1.inverseTransform rayO,
        localDirection sNN mesh1.inverseTransform rayO⟩
        (meshIntersectionTest sNN mesh1 rayO hit0).1 := by
  rw [mesh1_result]
  refine ⟨by norm_num, rfl, ?_⟩
  rw [mesh1_ro, mesh1_rd]
  norm_num [getPointOnRay, normalizeS, lengthS, dot3, sNN, localOrigin, localDirection,
    mesh1, rayO, multiplyMV, toVec4, idMat4, Vec3.smul_mk, Vec3.add_mk]

/-- C2 amended: only the box and sphere tests compute the reported point by
the shared epsilon-biased `getPointOnRay` routine; the mesh and octree
tests report the selected triangle's exact barycentric intersection point
(transformed to world space) with no bias. -/
theorem pointBiasPolicyAmended (s : ℚ → ℚ) (box sphere : Geom) (mesh : Mesh)
    (oct : OctreeDev) (r : Ray) (st : HitOut) (fuel : ℕ) (Hs : ∀ x, 0 ≤ s x) :
    ((boxSlab s box r).tmin.le (boxSlab s box r).tmax = true →
     (ExtQ.fin 0).lt (boxSlab s box r).tmax = true →
      (boxIntersectionTest s box r st).2.point =
        multiplyMV box.transform (toVec4 (getPointOnRay s
          ⟨localOrigin box.inverseTransform r, localDirection s box.inverseTransform r⟩
          (if (boxSlab s box r).tmin.le (ExtQ.fin 0) = true then (boxSlab s box r).tmax
           else (boxSlab s box r).tmin).toRat) 1)) ∧
    (¬ sphereRadicand s sphere r < 0 →
     ¬ (sphereT1 s sphere r < 0 ∧ sphereT2 s sphere r < 0) →
      (sphereIntersectionTest s sphere r st).2.point =
        multiplyMV sphere.transform (toVec4 (getPointOnRay s
          ⟨localOrigin sphere.inverseTransform r, localDirection s sphere.inverseTransform r⟩
          (if 0 < sphereT1 s sphere r ∧ 0 < sphereT2 s sphere r then
            min (sphereT1 s sphere r) (sphereT2 s sphere r)
           else max (sphereT1 s sphere r) (sphereT2 s sphere r))) 1)) ∧
    (∀ h hs', hitsOf s (localOrigin mesh.inverseTransform r)
        (localDirection s mesh.inverseTransform r) (meshLocalTris mesh) = h :: hs' →
      (meshIntersectionTest s mesh r st).2.point =
        multiplyMV mesh.transform (toVec4 (runMinAcc h hs').2.1 1)) ∧
    (∀ L h hs', octreeVisit s oct r fuel [oct.root] = some L →
      hitsOf s (localOrigin oct.inverseTransform r)
        (localDirection s oct.inverseTransform r) (L.map oct.triangles) = h :: hs' →
      ∃ p, octreeIntersectionTest s fuel oct r st = some p ∧
        p.2.point = multiplyMV oct.transform (toVec4 (runMinAcc h hs').2.1 1)) := by
  refine ⟨?_, ?_, ?_, ?_⟩
  · intro h1 h2
    rw [boxIntersectionTest_unfold, if_pos ⟨h1, h2⟩]
  · intro h1 h2
    rw [sphereIntersectionTest_unfold, if_neg h1, if_neg h2]
  · intro h hs' hl
    rw [meshIntersectionTest_eq s mesh r st Hs, hl]
    rfl
  · intro L h hs' hv hl
    have hsome : (octreeOutsideTrace s oct r fuel [oct.root] st.outside).isSome = true := by
      rw [octreeTrace_some_iff, hv]
      rfl
    rcases Option.isSome_iff_exists.mp hsome with ⟨ob, hob⟩
    have hfold := foldl_triStep_start s (localOrigin oct.inverseTransform r)
      (localDirection s oct.inverseTransform r) (L.map oct.triangles)
      ⟨-1, st.point, st.normal⟩ (hitsOf_fst_nonneg s _ _ _ Hs) (by norm_num)
    rw [hl] at hfold
    dsimp only at hfold
    have hmin := runMinAcc_minChoice hs' h
    have hnonneg : 0 ≤ (runMinAcc h hs').1 := by
      refine hitsOf_fst_nonneg s (localOrigin oct.inverseTransform r)
        (localDirection s oct.inverseTransform r) (L.map oct.triangles) Hs
        (runMinAcc h hs') ?_
      rw [hl]
      exact hmin.1
    refine ⟨facingPost s oct.transform oct.invTranspose r
      (localDirection s oct.inverseTransform r) (tupleState (runMinAcc h hs')), ?_, rfl⟩
    rw [octreeTest_eq, hv, hob]
    dsimp only
    rw [hfold]
    have hc : ¬ (tupleState (runMinAcc h hs')).t < 0 := not_lt.mpr hnonneg
    rw [if_neg hc]

/-- Witness for the amended C2 at the `mesh1` fixture: the mesh hypothesis
(a non-empty hit list) is discharged by `mesh1_hits`, and the reported
point is the world transform of the selected hit's exact barycentric
point. -/
theorem pointBiasPolicyAmended_witness :
    (∀ x : ℚ, 0 ≤ sNN x) ∧
    (meshIntersectionTest sNN mesh1 rayO hit0).2.point =
      multiplyMV mesh1.transform (toVec4 (runMinAcc (1, ⟨0, 0, 1⟩, ⟨0, 0, -1⟩)
        ([] : List (ℚ × Vec3 × Vec3))).2.1 1) :=
  ⟨sNN_nonneg,
   (pointBiasPolicyAmended sNN geomId geomId mesh1 oct1 rayO hit0 1 sNN_nonneg).2.2.1
     (1, ⟨0, 0, 1⟩, ⟨0, 0, -1⟩) [] mesh1_hits⟩

/-! ### C5: closest-hit selection with first-wins ties in the mesh test -/

/-- C5: when the mesh test hits, its result comes from a hit record of
minimal local-space distance from the local ray origin, and every hit
record encountered earlier in iteration order has strictly greater
distance — so on an exact tie the first-encountered triangle wins and a
later equal-distance hit does not replace it. -/
theorem meshClosestHitFirstWins (s : ℚ → ℚ) (mesh : Mesh) (r : Ray) (st : HitOut)
    (Hs : ∀ x, 0 ≤ s x) (h : ℚ × Vec3 × Vec3) (hs' : List (ℚ × Vec3 × Vec3))
    (hl : hitsOf s (localOrigin mesh.inverseTransform r)
      (localDirection s mesh.inverseTransform r) (meshLocalTris mesh) = h :: hs') :
    ∃ pre hsel post,
      hitsOf s (localOrigin mesh.inverseTransform r)
        (localDirection s mesh.inverseTransform r) (meshLocalTris mesh) =
        pre ++ hsel :: post ∧
      (∀ h' ∈ pre, hsel.1 < h'.1) ∧
      (∀ h' ∈ hitsOf s (localOrigin mesh.inverseTransform r)
        (localDirection s mesh.inverseTransform r) (meshLocalTris mesh), hsel.1 ≤ h'.1) ∧
      meshIntersectionTest s mesh r st =
        facingPost s mesh.transform mesh.invTranspose r
          (localDirection s mesh.inverseTransform r) (tupleState hsel) := by
  have heq := meshIntersectionTest_eq s mesh r st Hs
  rw [hl] at heq
  dsimp only at heq
  have hmin := runMinAcc_minChoice hs' h
  rcases runMinAcc_firstMin hs' h with ⟨hres, hminall⟩ |
    ⟨pre, hsel, post, hsplit, hres, hless, hpre, hpost⟩
  · refine ⟨[], h, hs', by rw [hl]; rfl, ?_, ?_, ?_⟩
    · intro h' hm
      exact absurd hm (List.not_mem_nil _)
    · intro h' hm
      rw [hl] at hm
      have hle := hmin.2 h' hm
      rw [hres] at hle
      exact hle
    · rw [heq, hres]
  · refine ⟨h :: pre, hsel, post, by rw [hl, hsplit]; rfl, ?_, ?_, ?_⟩
    · intro h' hm
      rcases List.mem_cons.mp hm with hm | hm
      · rw [hm]
        exact hless
      · exact hpre h' hm
    · intro h' hm
      rw [hl] at hm
      have hle := hmin.2 h' hm
      rw [hres] at hle
      exact hle
    · rw [heq, hres]

/-- Witness for C5 at the `mesh1` fixture. -/
theorem meshClosestHitFirstWins_witness :
    (∀ x : ℚ, 0 ≤ sNN x) ∧
    hitsOf sNN (localOrigin mesh1.inverseTransform rayO)
      (localDirection sNN mesh1.inverseTransform rayO) (meshLocalTris mesh1) =
      [(1, ⟨0, 0, 1⟩, ⟨0, 0, -1⟩)] ∧
    (∃ pre hsel post,
      hitsOf sNN (localOrigin mesh1.inverseTransform rayO)
        (localDirection sNN mesh1.inverseTransform rayO) (meshLocalTris mesh1) =
        pre ++ hsel :: post ∧
      (∀ h' ∈ pre, hsel.1 < h'.1) ∧
      (∀ h' ∈ hitsOf sNN (localOrigin mesh1.inverseTransform rayO)
        (localDirection sNN mesh1.inverseTransform rayO) (meshLocalTris mesh1),
        hsel.1 ≤ h'.1) ∧
      meshIntersectionTest sNN mesh1 rayO hit0 =
        facingPost sNN mesh1.transform mesh1.invTranspose rayO
          (localDirection sNN mesh1.inverseTransform rayO) (tupleState hsel)) :=
  ⟨sNN_nonneg, mesh1_hits,
   meshClosestHitFirstWins sNN mesh1 rayO hit0 sNN_nonneg
     (1, ⟨0, 0, 1⟩, ⟨0, 0, -1⟩) [] mesh1_hits⟩

/-! ### Hit/no-hit forms of the mesh and octree tests -/

theorem meshTest_nohit (s : ℚ → ℚ) (mesh : Mesh) (r : Ray) (st : HitOut)
    (Hs : ∀ x, 0 ≤ s x)
    (hl : hitsOf s (localOrigin mesh.inverseTransform r)
      (localDirection s mesh.inverseTransform r) (meshLocalTris mesh) = []) :
    meshIntersectionTest s mesh r st = (-1, ⟨st.point, st.normal, st.outside⟩) := by
  rw [meshIntersectionTest_eq s mesh r st Hs, hl]

theorem meshTest_hit (s : ℚ → ℚ) (mesh : Mesh) (r : Ray) (st : HitOut)
    (Hs : ∀ x, 0 ≤ s x) (h : ℚ × Vec3 × Vec3) (hs' : List (ℚ × Vec3 × Vec3))
    (hl : hitsOf s (localOrigin mesh.inverseTransform r)
      (localDirection s mesh.inverseTransform r) (meshLocalTris mesh) = h :: hs') :
    meshIntersectionTest s mesh r st =
      facingPost s mesh.transform mesh.invTranspose r
        (localDirection s mesh.inverseTransform r) (tupleState (runMinAcc h hs')) := by
  rw [meshIntersectionTest_eq s mesh r st Hs, hl]

theorem octreeTest_hit (s : ℚ → ℚ) (fuel : ℕ) (oct : OctreeDev) (r : Ray) (st : HitOut)
    (Hs : ∀ x, 0 ≤ s x) (L : List ℤ) (h : ℚ × Vec3 × Vec3)
    (hs' : List (ℚ × Vec3 × Vec3))
    (hv : octreeVisit s oct r fuel [oct.root] = some L)
    (hl : hitsOf s (localOrigin oct.inverseTransform r)
      (localDirection s oct.inverseTransform r) (L.map oct.triangles) = h :: hs') :
    octreeIntersectionTest s fuel oct r st =
      some (facingPost s oct.transform oct.invTranspose r
        (localDirection s oct.inverseTransform r) (tupleState (runMinAcc h hs'))) := by
  have hsome : (octreeOutsideTrace s oct r fuel [oct.root] st.outside).isSome = true := by
    rw [octreeTrace_some_iff, hv]
    rfl
  rcases Option.isSome_iff_exists.mp hsome with ⟨ob, hob⟩
  have hfold := foldl_triStep_start s (localOrigin oct.inverseTransform r)
    (localDirection s oct.inverseTransform r) (L.map oct.triangles)
    ⟨-1, st.point, st.normal⟩ (hitsOf_fst_nonneg s _ _ _ Hs) (by norm_num)
  rw [hl] at hfold
  dsimp only at hfold
  have hmin := runMinAcc_minChoice hs' h
  have hnonneg : 0 ≤ (runMinAcc h hs').1 := by
    refine hitsOf_fst_nonneg s (localOrigin oct.inverseTransform r)
      (localDirection s oct.inverseTransform r) (L.map oct.triangles) Hs
      (runMinAcc h hs') ?_
    rw [hl]
    exact hmin.1
  rw [octreeTest_eq, hv, hob]
  dsimp only
  rw [hfold]
  have hc : ¬ (tupleState (runMinAcc h hs')).t < 0 := not_lt.mpr hnonneg
  rw [if_neg hc]

theorem octreeTest_nohit (s : ℚ → ℚ) (fuel : ℕ) (oct : OctreeDev) (r : Ray) (st : HitOut)
    (Hs : ∀ x, 0 ≤ s x) (L : List ℤ)
    (hv : octreeVisit s oct r fuel [oct.root] = some L)
    (hl : hitsOf s (localOrigin oct.inverseTransform r)
      (localDirection s oct.inverseTransform r) (L.map oct.triangles) = []) :
    ∃ ob, octreeOutsideTrace s oct r fuel [oct.root] st.outside = some ob ∧
      octreeIntersectionTest s fuel oct r st = some (-1, ⟨st.point, st.normal, ob⟩) := by
  have hsome : (octreeOutsideTrace s oct r fuel [oct.root] st.outside).isSome = true := by
    rw [octreeTrace_some_iff, hv]
    rfl
  rcases Option.isSome_iff_exists.mp hsome with ⟨ob, hob⟩
  have hfold := foldl_triStep_start s (localOrigin oct.inverseTransform r)
    (localDirection s oct.inverseTransform r) (L.map oct.triangles)
    ⟨-1, st.point, st.normal⟩ (hitsOf_fst_nonneg s _ _ _ Hs) (by norm_num)
  rw [hl] at hfold
  dsimp only at hfold
  refine ⟨ob, hob, ?_⟩
  rw [octreeTest_eq, hv, hob]
  dsimp only
  rw [hfold]
  rw [if_pos (by norm_num : ((⟨-1, st.point, st.normal⟩ : TriState)).t < 0)]

/-! ### C7: facing-direction rule for the mesh/octree `outside` flag -/

theorem facingPost_fst (s : ℚ → ℚ) (tM iM : Mat4) (r : Ray) (rd : Vec3) (best : TriState) :
    (facingPost s tM iM r rd best).1 =
      lengthS s (r.origin - multiplyMV tM (toVec4 best.point 1)) := rfl

theorem facingPost_point (s : ℚ → ℚ) (tM iM : Mat4) (r : Ray) (rd : Vec3) (best : TriState) :
    (facingPost s tM iM r rd best).2.point = multiplyMV tM (toVec4 best.point 1) := rfl

theorem facingPost_outside (s : ℚ → ℚ) (tM iM : Mat4) (r : Ray) (rd : Vec3) (best : TriState) :
    (facingPost s tM iM r rd best).2.outside =
      decide (dot3 (normalizeS s (multiplyMV iM (toVec4 best.normal 0))) rd < 0) := rfl

theorem facingPost_normal (s : ℚ → ℚ) (tM iM : Mat4) (r : Ray) (rd : Vec3) (best : TriState) :
    (facingPost s tM iM r rd best).2.normal =
      if decide (dot3 (normalizeS s (multiplyMV iM (toVec4 best.normal 0))) rd < 0) = true
      then normalizeS s (multiplyMV iM (toVec4 best.normal 0))
      else -(normalizeS s (multiplyMV iM (toVec4 best.normal 0))) := rfl

/-- C7: on a mesh or octree hit, the `outside` flag is true exactly when
`dot(world normal, local ray direction) < 0` at the point where it is
computed; when that dot product is `≥ 0` the reported normal is the negated
world normal and `outside` is reported false — `outside` is derived from
facing direction, not from ray-origin containment. -/
theorem facingOutsideRule (s : ℚ → ℚ) (mesh : Mesh) (oct : OctreeDev) (r : Ray)
    (st : HitOut) (fuel : ℕ) (Hs : ∀ x, 0 ≤ s x) :
    (∀ h hs', hitsOf s (localOrigin mesh.inverseTransform r)
        (localDirection s mesh.inverseTransform r) (meshLocalTris mesh) = h :: hs' →
      ((meshIntersectionTest s mesh r st).2.outside = true ↔
        dot3 (normalizeS s (multiplyMV mesh.invTranspose (toVec4 (runMinAcc h hs').2.2 0)))
          (localDirection s mesh.inverseTransform r) < 0) ∧
      (dot3 (normalizeS s (multiplyMV mesh.invTranspose (toVec4 (runMinAcc h hs').2.2 0)))
          (localDirection s mesh.inverseTransform r) < 0 →
        (meshIntersectionTest s mesh r st).2.normal =
          normalizeS s (multiplyMV mesh.invTranspose (toVec4 (runMinAcc h hs').2.2 0))) ∧
      (¬ dot3 (normalizeS s (multiplyMV mesh.invTranspose (toVec4 (runMinAcc h hs').2.2 0)))
          (localDirection s mesh.inverseTransform r) < 0 →
        (meshIntersectionTest s mesh r st).2.normal =
          -(normalizeS s (multiplyMV mesh.invTranspose (toVec4 (runMinAcc h hs').2.2 0))) ∧
        (meshIntersectionTest s mesh r st).2.outside = false)) ∧
    (∀ L h hs', octreeVisit s oct r fuel [oct.root] = some L →
      hitsOf s (localOrigin oct.inverseTransform r)
        (localDirection s oct.inverseTransform r) (L.map oct.triangles) = h :: hs' →
      ∃ p, octreeIntersectionTest s fuel oct r st = some p ∧
        ((p.2.outside = true ↔
          dot3 (normalizeS s (multiplyMV oct.invTranspose (toVec4 (runMinAcc h hs').2.2 0)))
            (localDirection s oct.inverseTransform r) < 0) ∧
        (dot3 (normalizeS s (multiplyMV oct.invTranspose (toVec4 (runMinAcc h hs').2.2 0)))
            (localDirection s oct.inverseTransform r) < 0 →
          p.2.normal =
            normalizeS s (multiplyMV oct.invTranspose (toVec4 (runMinAcc h hs').2.2 0))) ∧
        (¬ dot3 (normalizeS s (multiplyMV oct.invTranspose (toVec4 (runMinAcc h hs').2.2 0)))
            (localDirection s oct.inverseTransform r) < 0 →
          p.2.normal =
            -(normalizeS s (multiplyMV oct.invTranspose (toVec4 (runMinAcc h hs').2.2 0))) ∧
          p.2.outside = false))) := by
  constructor
  · intro h hs' hl
    rw [meshTest_hit s mesh r st Hs h hs' hl]
    rw [facingPost_outside, facingPost_normal]
    dsimp only [tupleState]
    refine ⟨by simp, ?_, ?_⟩
    · intro hd
      rw [if_pos (decide_eq_true hd)]
    · intro hd
      rw [if_neg (by simp [decide_eq_false hd]), decide_eq_false hd]
      exact ⟨rfl, rfl⟩
  · intro L h hs' hv hl
    refine ⟨facingPost s oct.transform oct.invTranspose r
      (localDirection s oct.inverseTransform r) (tupleState (runMinAcc h hs')),
      octreeTest_hit s fuel oct r st Hs L h hs' hv hl, ?_⟩
    rw [facingPost_outside, facingPost_normal]
    dsimp only [tupleState]
    refine ⟨by simp, ?_, ?_⟩
    · intro hd
      rw [if_pos (decide_eq_true hd)]
    · intro hd
      rw [if_neg (by simp [decide_eq_false hd]), decide_eq_false hd]
      exact ⟨rfl, rfl⟩

/-- Witness for C7 at the `mesh1` fixture: the world normal is `(0,0,-1)`,
the local direction `(0,0,1)`, so the dot product is negative and
`outside = true`. -/
theorem facingOutsideRule_witness :
    (∀ x : ℚ, 0 ≤ sNN x) ∧
    hitsOf sNN (localOrigin mesh1.inverseTransform rayO)
      (localDirection sNN mesh1.inverseTransform rayO) (meshLocalTris mesh1) =
      [(1, ⟨0, 0, 1⟩, ⟨0, 0, -1⟩)] ∧
    ((meshIntersectionTest sNN mesh1 rayO hit0).2.outside = true ↔
      dot3 (normalizeS sNN (multiplyMV mesh1.invTranspose
        (toVec4 (runMinAcc (1, ⟨0, 0, 1⟩, ⟨0, 0, -1⟩) ([] : List (ℚ × Vec3 × Vec3))).2.2 0)))
        (localDirection sNN mesh1.inverseTransform rayO) < 0) :=
  ⟨sNN_nonneg, mesh1_hits,
   ((facingOutsideRule sNN mesh1 oct1 rayO hit0 1 sNN_nonneg).1
     (1, ⟨0, 0, 1⟩, ⟨0, 0, -1⟩) [] mesh1_hits).1⟩

/-! ### C8: the `-1` sentinel and non-negative hit distances -/

/-- C8: each of the four tests returns either the sentinel `-1` (no hit) or
a world-space distance — the length of `r.origin` minus the reported
intersection point — which is non-negative because `sqrtf` is; since
`-1 < 0`, the sign of the return value separates the two cases. -/
theorem noHitSentinelSigns (s : ℚ → ℚ) (box sphere : Geom) (mesh : Mesh)
    (oct : OctreeDev) (r : Ray) (st : HitOut) (fuel : ℕ) (Hs : ∀ x, 0 ≤ s x) :
    ((boxIntersectionTest s box r st).1 = -1 ∨
      (0 ≤ (boxIntersectionTest s box r st).1 ∧
       (boxIntersectionTest s box r st).1 =
         lengthS s (r.origin - (boxIntersectionTest s box r st).2.point))) ∧
    ((sphereIntersectionTest s sphere r st).1 = -1 ∨
      (0 ≤ (sphereIntersectionTest s sphere r st).1 ∧
       (sphereIntersectionTest s sphere r st).1 =
         lengthS s (r.origin - (sphereIntersectionTest s sphere r st).2.point))) ∧
    ((meshIntersectionTest s mesh r st).1 = -1 ∨
      (0 ≤ (meshIntersectionTest s mesh r st).1 ∧
       (meshIntersectionTest s mesh r st).1 =
         lengthS s (r.origin - (meshIntersectionTest s mesh r st).2.point))) ∧
    (∀ p, octreeIntersectionTest s fuel oct r st = some p →
      p.1 = -1 ∨ (0 ≤ p.1 ∧ p.1 = lengthS s (r.origin - p.2.point))) := by
  refine ⟨?_, ?_, ?_, ?_⟩
  · rw [boxIntersectionTest_unfold]
    by_cases hc : (boxSlab s box r).tmin.le (boxSlab s box r).tmax = true ∧
        (ExtQ.fin 0).lt (boxSlab s box r).tmax = true
    · rw [if_pos hc]
      exact Or.inr ⟨Hs _, rfl⟩
    · rw [if_neg hc]
      exact Or.inl rfl
  · rw [sphereIntersectionTest_unfold]
    by_cases h1 : sphereRadicand s sphere r < 0
    · rw [if_pos h1]
      exact Or.inl rfl
    · rw [if_neg h1]
      by_cases h2 : sphereT1 s sphere r < 0 ∧ sphereT2 s sphere r < 0
      · rw [if_pos h2]
        exact Or.inl rfl
      · rw [if_neg h2]
        exact Or.inr ⟨Hs _, rfl⟩
  · cases hl : hitsOf s (localOrigin mesh.inverseTransform r)
        (localDirection s mesh.inverseTransform r) (meshLocalTris mesh) with
    | nil =>
      rw [meshTest_nohit s mesh r st Hs hl]
      exact Or.inl rfl
    | cons h hs' =>
      rw [meshTest_hit s mesh r st Hs h hs' hl]
      exact Or.inr ⟨Hs _, rfl⟩
  · intro p hp
    cases hv : octreeVisit s oct r fuel [oct.root] with
    | none =>
      rw [octreeTest_eq, hv] at hp
      exact absurd hp (by
        cases octreeOutsideTrace s oct r fuel [oct.root] st.outside <;> simp)
    | some L =>
      cases hl : hitsOf s (localOrigin oct.inverseTransform r)
          (localDirection s oct.inverseTransform r) (L.map oct.triangles) with
      | nil =>
        rcases octreeTest_nohit s fuel oct r st Hs L hv hl with ⟨ob, _, hres⟩
        rw [hres] at hp
        rcases Option.some_inj.mp hp with rfl
        exact Or.inl rfl
      | cons h hs' =>
        rw [octreeTest_hit s fuel oct r st Hs L h hs' hv hl] at hp
        rcases Option.some_inj.mp hp with rfl
        exact Or.inr ⟨Hs _, rfl⟩

/-- Witness for C8 at the concrete fixtures. -/
theorem noHitSentinelSigns_witness :
    (∀ x : ℚ, 0 ≤ sNN x) ∧
    ((boxIntersectionTest sNN geomId rayZ hit0).1 = -1 ∨
      (0 ≤ (boxIntersectionTest sNN geomId rayZ hit0).1 ∧
       (boxIntersectionTest sNN geomId rayZ hit0).1 =
         lengthS sNN (rayZ.origin - (boxIntersectionTest sNN geomId rayZ hit0).2.point))) ∧
    ((meshIntersectionTest sNN mesh1 rayZ hit0).1 = -1 ∨
      (0 ≤ (meshIntersectionTest sNN mesh1 rayZ hit0).1 ∧
       (meshIntersectionTest sNN mesh1 rayZ hit0).1 =
         lengthS sNN (rayZ.origin - (meshIntersectionTest sNN mesh1 rayZ hit0).2.point))) := by
  exact ⟨sNN_nonneg,
    (noHitSentinelSigns sNN geomId geomId mesh1 oct1 rayZ hit0 1 sNN_nonneg).1,
    (noHitSentinelSigns sNN geomId geomId mesh1 oct1 rayZ hit0 1 sNN_nonneg).2.2.1⟩

theorem boxRayO_slab : boxSlab sNN geomId rayO =
    ⟨.fin (-(10 ^ 38 : ℚ)), .fin (1 / 2), zero3, ⟨0, 0, -1⟩⟩ := by
  norm_num [boxSlab, slabRun, slabAxis, slabInit, qdivE, ExtQ.lt, ExtQ.minG,
    ExtQ.maxG, Vec3.comp, axisVec, localOrigin, localDirection, geomId, idMat4,
    rayO, multiplyMV, toVec4, normalizeS, lengthS, dot3, sNN, Vec3.smul_mk, zero3]

theorem boxRayO_result (st : HitOut) : boxIntersectionTest sNN geomId rayO st =
    (24990001 / 100000000, ⟨⟨0, 0, 4999 / 10000⟩, ⟨0, 0, -1⟩, false⟩) := by
  rw [boxIntersectionTest_unfold, boxRayO_slab]
  norm_num [ExtQ.le, ExtQ.lt, ExtQ.toRat, getPointOnRay, normalizeS, lengthS, dot3,
    sNN, localOrigin, localDirection, geomId, idMat4, rayO, multiplyMV, toVec4,
    Vec3.smul_mk, Vec3.add_mk, Vec3.sub_mk]

/-- Single-leaf octree whose leaf triangle range is empty (identity
bounding box). -/
def octE : OctreeDev :=
  ⟨idMat4, idMat4, idMat4, 0,
   fun _ => ⟨true, fun _ => -1⟩,
   fun _ => geomId,
   fun _ => 0,
   fun _ => ⟨⟨0, 0, 1⟩, ⟨0, 1, 1⟩, ⟨1, 0, 1⟩⟩⟩

theorem octE_dist : nodeBoxDist sNN octE rayO 0 = 24990001 / 100000000 := by
  rw [nodeBoxDist, show octE.boundingBoxes 0 = geomId from rfl, boxRayO_result]

theorem octE_outside (b : Bool) : nodeBoxOutside sNN octE rayO 0 b = false := by
  rw [nodeBoxOutside, show octE.boundingBoxes 0 = geomId from rfl, boxRayO_result]

theorem octE_visit : octreeVisit sNN octE rayO 1 [0] = some [] := by
  rw [octreeVisit_succ]
  rw [if_pos (by rw [octE_dist]; norm_num)]
  rw [if_pos (show (octE.nodes 0).isLeaf = true from rfl)]
  rw [octreeVisit_nil]
  simp [leafRange, octE]

theorem octE_otrace : octreeOutsideTrace sNN octE rayO 1 [0] true = some false := by
  rw [octreeOutsideTrace_succ, octE_outside]
  rw [if_pos (by rw [octE_dist]; norm_num)]
  rw [if_pos (show (octE.nodes 0).isLeaf = true from rfl)]
  rw [octreeOutsideTrace_nil]

theorem octE_result : octreeIntersectionTest sNN 1 octE rayO ⟨zero3, zero3, true⟩ =
    some (-1, ⟨zero3, zero3, false⟩) := by
  rw [octreeTest_eq, show octE.root = (0 : ℤ) from rfl, octE_visit, octE_otrace]
  dsimp only [List.map_nil, List.foldl_nil]
  rw [if_pos (show ((⟨-1, zero3, zero3⟩ : TriState)).t < 0 by norm_num)]

/-! ### C10: out-parameter frame effects on the no-hit path -/

theorem lengthS_ne_neg_one (s : ℚ → ℚ) (v : Vec3) (Hs : ∀ x, 0 ≤ s x) :
    ¬ lengthS s v = -1 := by
  intro h
  have h0 : (0 : ℚ) ≤ lengthS s v := Hs _
  rw [h] at h0
  norm_num at h0

/-- C10: on a `-1` return the box, sphere and mesh tests leave all three
out-parameters exactly as the caller passed them; the octree test leaves
`intersectionPoint` and `normal` untouched but may still have written
`outside`, because the caller's `outside` reference is threaded through the
per-node box tests — the final conjunct exhibits a concrete octree
(`octE`, one leaf with an empty triangle range) and ray for which the
no-hit return flips `outside` from `true` to `false`. -/
theorem noHitFrameEffects (s : ℚ → ℚ) (box sphere : Geom) (mesh : Mesh)
    (oct : OctreeDev) (r : Ray) (st : HitOut) (fuel : ℕ) (Hs : ∀ x, 0 ≤ s x) :
    ((boxIntersectionTest s box r st).1 = -1 → (boxIntersectionTest s box r st).2 = st) ∧
    ((sphereIntersectionTest s sphere r st).1 = -1 →
      (sphereIntersectionTest s sphere r st).2 = st) ∧
    ((meshIntersectionTest s mesh r st).1 = -1 →
      (meshIntersectionTest s mesh r st).2 = st) ∧
    (∀ p, octreeIntersectionTest s fuel oct r st = some p → p.1 = -1 →
      p.2.point = st.point ∧ p.2.normal = st.normal) ∧
    octreeIntersectionTest sNN 1 octE rayO ⟨zero3, zero3, true⟩ =
      some (-1, ⟨zero3, zero3, false⟩) := by
  refine ⟨?_, ?_, ?_, ?_, octE_result⟩
  · rw [boxIntersectionTest_unfold]
    by_cases hc : (boxSlab s box r).tmin.le (boxSlab s box r).tmax = true ∧
        (ExtQ.fin 0).lt (boxSlab s box r).tmax = true
    · rw [if_pos hc]
      intro hres
      exact absurd hres (lengthS_ne_neg_one s _ Hs)
    · rw [if_neg hc]
      intro _
      rfl
  · rw [sphereIntersectionTest_unfold]
    by_cases h1 : sphereRadicand s sphere r < 0
    · rw [if_pos h1]
      intro _
      rfl
    · rw [if_neg h1]
      by_cases h2 : sphereT1 s sphere r < 0 ∧ sphereT2 s sphere r < 0
      · rw [if_pos h2]
        intro _
        rfl
      · rw [if_neg h2]
        intro hres
        exact absurd hres (lengthS_ne_neg_one s _ Hs)
  · cases hl : hitsOf s (localOrigin mesh.inverseTransform r)
        (localDirection s mesh.inverseTransform r) (meshLocalTris mesh) with
    | nil =>
      rw [meshTest_nohit s mesh r st Hs hl]
      intro _
      rfl
    | cons h hs' =>
      rw [meshTest_hit s mesh r st Hs h hs' hl, facingPost_fst]
      intro hres
      exact absurd hres (lengthS_ne_neg_one s _ Hs)
  · intro p hp
    cases hv : octreeVisit s oct r fuel [oct.root] with
    | none =>
      rw [octreeTest_eq, hv] at hp
      exact absurd hp (by
        cases octreeOutsideTrace s oct r fuel [oct.root] st.outside <;> simp)
    | some L =>
      cases hl : hitsOf s (localOrigin oct.inverseTransform r)
          (localDirection s oct.inverseTransform r) (L.map oct.triangles) with
      | nil =>
        rcases octreeTest_nohit s fuel oct r st Hs L hv hl with ⟨ob, _, hres⟩
        rw [hres] at hp
        rcases Option.some_inj.mp hp with rfl
        intro _
        exact ⟨rfl, rfl⟩
      | cons h hs' =>
        rw [octreeTest_hit s fuel oct r st Hs L h hs' hv hl] at hp
        rcases Option.some_inj.mp hp with rfl
        rw [facingPost_fst]
        intro hres
        exact absurd hres (lengthS_ne_neg_one s _ Hs)

/-- Witness for C10: the box conjunct instantiated at a ray that misses the
identity box (origin beyond the box moving away), and the concrete octree
conjunct. -/
theorem noHitFrameEffects_witness :
    (∀ x : ℚ, 0 ≤ sNN x) ∧
    ((boxIntersectionTest sNN geomId ⟨⟨0, 0, 5⟩, ⟨0, 0, 1⟩⟩ hit0).1 = -1 →
      (boxIntersectionTest sNN geomId ⟨⟨0, 0, 5⟩, ⟨0, 0, 1⟩⟩ hit0).2 = hit0) ∧
    octreeIntersectionTest sNN 1 octE rayO ⟨zero3, zero3, true⟩ =
      some (-1, ⟨zero3, zero3, false⟩) :=
  ⟨sNN_nonneg,
   (noHitFrameEffects sNN geomId geomId mesh1 oct1 ⟨⟨0, 0, 5⟩, ⟨0, 0, 1⟩⟩ hit0 1
     sNN_nonneg).1,
   (noHitFrameEffects sNN geomId geomId mesh1 oct1 ⟨⟨0, 0, 5⟩, ⟨0, 0, 1⟩⟩ hit0 1
     sNN_nonneg).2.2.2.2⟩

/-! ### C9: the fixed-capacity traversal stack stays in bounds -/

/-- C9: if the number of simultaneously pending nodes along the traversal
(`octreeMaxStack`, the running maximum of the stack length) never exceeds
the fixed capacity `8*8*8 = 512`, then the capacity-checked model of the
traversal (`octreeLoopCap`, in which every `stack[stackSize] = ...` write
is bounds-checked and an overflow faults) never reaches the out-of-bounds
branch and behaves exactly like the unchecked loop; pops are always guarded
by `stackSize > 0`, so `0 ≤ stackSize ≤ 512` holds at every step. -/
theorem stackCapacitySafe (s : ℚ → ℚ) (oct : OctreeDev) (r : Ray) (st : OctState)
    (fuel m : ℕ)
    (Hm : octreeMaxStack s oct r fuel [oct.root] 1 = some m)
    (Hcap : m ≤ 8 * 8 * 8) :
    octreeLoopCap s oct r (localOrigin oct.inverseTransform r)
      (localDirection s oct.inverseTransform r) (8 * 8 * 8) fuel [oct.root] st ≠
      CapResult.fault ∧
    octreeLoopCap s oct r (localOrigin oct.inverseTransform r)
      (localDirection s oct.inverseTransform r) (8 * 8 * 8) fuel [oct.root] st =
      (match octreeLoop s oct r (localOrigin oct.inverseTransform r)
          (localDirection s oct.inverseTransform r) fuel [oct.root] st with
       | none => CapResult.fuelOut
       | some st2 => CapResult.done st2) := by
  have heq := octreeLoopCap_eq_loop s oct r (localOrigin oct.inverseTransform r)
    (localDirection s oct.inverseTransform r) (8 * 8 * 8) fuel [oct.root] st 1 m Hm Hcap
  refine ⟨?_, heq⟩
  rw [heq]
  cases octreeLoop s oct r (localOrigin oct.inverseTransform r)
    (localDirection s oct.inverseTransform r) fuel [oct.root] st <;> simp

theorem oct1_dist : nodeBoxDist sNN oct1 rayO 0 = 24990001 / 100000000 := by
  rw [nodeBoxDist, show oct1.boundingBoxes 0 = geomId from rfl, boxRayO_result]

theorem oct1_maxStack : octreeMaxStack sNN oct1 rayO 1 [0] 1 = some 1 := by
  rw [octreeMaxStack_succ]
  rw [if_pos (by rw [oct1_dist]; norm_num)]
  rw [if_pos (show (oct1.nodes 0).isLeaf = true from rfl)]
  rw [octreeMaxStack_nil]

/-- Witness for C9 at the single-leaf octree `oct1`: the maximum pending
count is `1 ≤ 512`. -/
theorem stackCapacitySafe_witness :
    (octreeMaxStack sNN oct1 rayO 1 [oct1.root] 1 = some 1 ∧ 1 ≤ 8 * 8 * 8) ∧
    (octreeLoopCap sNN oct1 rayO (localOrigin oct1.inverseTransform rayO)
      (localDirection sNN oct1.inverseTransform rayO) (8 * 8 * 8) 1 [oct1.root]
      ⟨⟨-1, zero3, zero3⟩, false⟩ ≠ CapResult.fault ∧
    octreeLoopCap sNN oct1 rayO (localOrigin oct1.inverseTransform rayO)
      (localDirection sNN oct1.inverseTransform rayO) (8 * 8 * 8) 1 [oct1.root]
      ⟨⟨-1, zero3, zero3⟩, false⟩ =
      (match octreeLoop sNN oct1 rayO (localOrigin oct1.inverseTransform rayO)
          (localDirection sNN oct1.inverseTransform rayO) 1 [oct1.root]
          ⟨⟨-1, zero3, zero3⟩, false⟩ with
       | none => CapResult.fuelOut
       | some st2 => CapResult.done st2)) :=
  ⟨⟨oct1_maxStack, by norm_num⟩,
   stackCapacitySafe sNN oct1 rayO ⟨⟨-1, zero3, zero3⟩, false⟩ 1 1 oct1_maxStack
     (by norm_num)⟩

/-! ### C1: mesh/octree agreement -/

/-- C1: for an octree built over a mesh — same transforms, every visited
triangle a copy of a mesh triangle (a consequence of the leaf-range
partition invariant), no mesh triangle hit by the local ray pruned from the
visit trace (the traversal-level consequence of the leaf-box containment
invariants), and hits at the same minimal distance sharing their
intersection point (exact-tie uniqueness; in exact arithmetic the two tests
may otherwise report different equal-`t` triangles whose world distances
differ) — the octree test and the brute-force mesh test return exactly the
same result value: both `-1`, or the same world-space distance. -/
theorem meshOctreeAgreement (s : ℚ → ℚ) (mesh : Mesh) (oct : OctreeDev) (r : Ray)
    (fuel : ℕ) (st1 st2 : HitOut) (V : List ℤ)
    (Hs : ∀ x, 0 ≤ s x)
    (Htr : oct.transform = mesh.transform)
    (Hinv : oct.inverseTransform = mesh.inverseTransform)
    (HV : octreeVisit s oct r fuel [oct.root] = some V)
    (Hsound : ∀ j ∈ V, oct.triangles j ∈ meshLocalTris mesh)
    (Hcov : ∀ tri ∈ meshLocalTris mesh,
      (hitOf s (localOrigin mesh.inverseTransform r)
        (localDirection s mesh.inverseTransform r) tri).isSome = true →
      tri ∈ V.map oct.triangles)
    (Huniq : ∀ h ∈ hitsOf s (localOrigin mesh.inverseTransform r)
        (localDirection s mesh.inverseTransform r) (meshLocalTris mesh),
      ∀ h' ∈ hitsOf s (localOrigin mesh.inverseTransform r)
        (localDirection s mesh.inverseTransform r) (meshLocalTris mesh),
      h.1 = h'.1 → h.2.1 = h'.2.1) :
    (octreeIntersectionTest s fuel oct r st2).map Prod.fst =
      some (meshIntersectionTest s mesh r st1).1 := by
  have hOM : ∀ h ∈ hitsOf s (localOrigin mesh.inverseTransform r)
      (localDirection s mesh.inverseTransform r) (V.map oct.triangles),
      h ∈ hitsOf s (localOrigin mesh.inverseTransform r)
        (localDirection s mesh.inverseTransform r) (meshLocalTris mesh) := by
    intro h hm
    rcases List.mem_filterMap.mp hm with ⟨tri, htri, hhit⟩
    rcases List.mem_map.mp htri with ⟨j, hj, hje⟩
    exact List.mem_filterMap.mpr ⟨tri, by rw [← hje]; exact Hsound j hj, hhit⟩
  have hMO : ∀ h ∈ hitsOf s (localOrigin mesh.inverseTransform r)
      (localDirection s mesh.inverseTransform r) (meshLocalTris mesh),
      h ∈ hitsOf s (localOrigin mesh.inverseTransform r)
        (localDirection s mesh.inverseTransform r) (V.map oct.triangles) := by
    intro h hm
    rcases List.mem_filterMap.mp hm with ⟨tri, htri, hhit⟩
    have hsome : (hitOf s (localOrigin mesh.inverseTransform r)
        (localDirection s mesh.inverseTransform r) tri).isSome = true := by
      rw [hhit]; rfl
    exact List.mem_filterMap.mpr ⟨tri, Hcov tri htri hsome, hhit⟩
  cases hM : hitsOf s (localOrigin mesh.inverseTransform r)
      (localDirection s mesh.inverseTransform r) (meshLocalTris mesh) with
  | nil =>
    have hO : hitsOf s (localOrigin mesh.inverseTransform r)
        (localDirection s mesh.inverseTransform r) (V.map oct.triangles) = [] := by
      cases ho : hitsOf s (localOrigin mesh.inverseTransform r)
          (localDirection s mesh.inverseTransform r) (V.map oct.triangles) with
      | nil => rfl
      | cons h t =>
        have := hOM h (by rw [ho]; exact List.mem_cons_self _ _)
        rw [hM] at this
        exact absurd this (List.not_mem_nil _)
    rcases octreeTest_nohit s fuel oct r st2 Hs V HV
      (by rw [Hinv]; exact hO) with ⟨ob, _, hres⟩
    rw [hres, meshTest_nohit s mesh r st1 Hs hM]
    rfl
  | cons hm hms =>
    have hOno : hitsOf s (localOrigin mesh.inverseTransform r)
        (localDirection s mesh.inverseTransform r) (V.map oct.triangles) ≠ [] := by
      intro ho
      have := hMO hm (by rw [hM]; exact List.mem_cons_self _ _)
      rw [ho] at this
      exact absurd this (List.not_mem_nil _)
    cases ho : hitsOf s (localOrigin mesh.inverseTransform r)
        (localDirection s mesh.inverseTransform r) (V.map oct.triangles) with
    | nil => exact absurd ho hOno
    | cons ho1 hos =>
      have hselM := runMinAcc_minChoice hms hm
      have hselO := runMinAcc_minChoice hos ho1
      have hselM_in : runMinAcc hm hms ∈ hitsOf s (localOrigin mesh.inverseTransform r)
          (localDirection s mesh.inverseTransform r) (meshLocalTris mesh) := by
        rw [hM]; exact hselM.1
      have hselO_inO : runMinAcc ho1 hos ∈ hitsOf s (localOrigin mesh.inverseTransform r)
          (localDirection s mesh.inverseTransform r) (V.map oct.triangles) := by
        rw [ho]; exact hselO.1
      have hselO_in : runMinAcc ho1 hos ∈ hitsOf s (localOrigin mesh.inverseTransform r)
          (localDirection s mesh.inverseTransform r) (meshLocalTris mesh) :=
        hOM _ hselO_inO
      have hle1 : (runMinAcc hm hms).1 ≤ (runMinAcc ho1 hos).1 := by
        have := hselO_in
        rw [hM] at this
        exact hselM.2 _ this
      have hle2 : (runMinAcc ho1 hos).1 ≤ (runMinAcc hm hms).1 := by
        have := hMO _ hselM_in
        rw [ho] at this
        exact hselO.2 _ this
      have heqt : (runMinAcc hm hms).1 = (runMinAcc ho1 hos).1 :=
        le_antisymm hle1 hle2
      have heqp : (runMinAcc hm hms).2.1 = (runMinAcc ho1 hos).2.1 :=
        Huniq _ hselM_in _ hselO_in heqt
      rw [octreeTest_hit s fuel oct r st2 Hs V ho1 hos HV (by rw [Hinv]; exact ho)]
      rw [meshTest_hit s mesh r st1 Hs hm hms hM]
      rw [Option.map_some']
      rw [facingPost_fst, facingPost_fst, Htr]
      dsimp only [tupleState]
      rw [heqp]

theorem oct1_visit : octreeVisit sNN oct1 rayO 1 [0] = some [0] := by
  rw [octreeVisit_succ]
  rw [if_pos (by rw [oct1_dist]; norm_num)]
  rw [if_pos (show (oct1.nodes 0).isLeaf = true from rfl)]
  rw [octreeVisit_nil]
  simp [leafRange, oct1, List.range_succ]

/-- Witness for C1: the one-triangle mesh `mesh1` and the single-leaf
octree `oct1` holding a copy of the same triangle, with the ray from the
origin along `+z`. -/
theorem meshOctreeAgreement_witness :
    (∀ x : ℚ, 0 ≤ sNN x) ∧
    octreeVisit sNN oct1 rayO 1 [oct1.root] = some [0] ∧
    (octreeIntersectionTest sNN 1 oct1 rayO hit0).map Prod.fst =
      some (meshIntersectionTest sNN mesh1 rayO hit0).1 :=
  ⟨sNN_nonneg, oct1_visit,
   meshOctreeAgreement sNN mesh1 oct1 rayO 1 hit0 hit0 [0] sNN_nonneg rfl rfl
     oct1_visit
     (by
       intro j hj
       rw [mesh1_tris]
       exact List.mem_singleton.mpr rfl)
     (by
       intro tri htri _
       rw [mesh1_tris] at htri
       rw [List.mem_singleton.mp htri]
       exact List.mem_singleton.mpr rfl)
     (by
       intro h hm h' hm' _
       rw [mesh1_hits] at hm hm'
       rw [List.mem_singleton.mp hm, List.mem_singleton.mp hm'])⟩

/-- A point lies in the unit box `[-1/2,1/2]^3` of a box's local frame. -/
def pointInUnitBox (m : Mat4) (p : Vec3) : Prop :=
  -(1 / 2 : ℚ) ≤ (multiplyMV m (toVec4 p 1)).x ∧ (multiplyMV m (toVec4 p 1)).x ≤ 1 / 2 ∧
  -(1 / 2 : ℚ) ≤ (multiplyMV m (toVec4 p 1)).y ∧ (multiplyMV m (toVec4 p 1)).y ≤ 1 / 2 ∧
  -(1 / 2 : ℚ) ≤ (multiplyMV m (toVec4 p 1)).z ∧ (multiplyMV m (toVec4 p 1)).z ≤ 1 / 2

/-- One-triangle mesh lying strictly inside the unit box just in front of
the plane `z = 0.4999`. -/
def mesh2 : Mesh :=
  ⟨idMat4, idMat4, idMat4,
   fun i => if i = 0 then -2/5 else if i = 1 then -2/5 else if i = 2 then 9999/20000
     else if i = 3 then -2/5 else if i = 4 then 2/5 else if i = 5 then 9999/20000
     else if i = 6 then 2/5 else if i = 7 then -2/5 else if i = 8 then 9999/20000 else 0,
   fun i => if i = 0 then 0 else if i = 1 then 1 else if i = 2 then 2 else 0,
   3⟩

/-- Single-leaf octree over `mesh2` (identity bounding box containing the
triangle, leaf range `[0,1)` covering the whole triangle array). -/
def octC : OctreeDev :=
  ⟨idMat4, idMat4, idMat4, 0,
   fun _ => ⟨true, fun _ => -1⟩,
   fun _ => geomId,
   fun i => if i ≤ 0 then 0 else 1,
   fun _ => ⟨⟨-2/5, -2/5, 9999/20000⟩, ⟨-2/5, 2/5, 9999/20000⟩, ⟨2/5, -2/5, 9999/20000⟩⟩⟩

/-- A ray whose origin sits exactly `1e-4` (the `getPointOnRay` bias)
inside the box's `+z` face. -/
def rayC : Ray := ⟨⟨-1/10, -1/10, 4999/10000⟩, ⟨0, 0, 1⟩⟩

theorem mesh2_tris : meshLocalTris mesh2 =
    [⟨⟨-2/5, -2/5, 9999/20000⟩, ⟨-2/5, 2/5, 9999/20000⟩, ⟨2/5, -2/5, 9999/20000⟩⟩] := by
  norm_num [meshLocalTris, meshTriIndices, mesh2, List.range_succ, meshTriangle, meshVert]

theorem mesh2_ro : localOrigin mesh2.inverseTransform rayC = ⟨-1/10, -1/10, 4999/10000⟩ := by
  norm_num [localOrigin, mesh2, rayC, multiplyMV, toVec4, idMat4]

theorem mesh2_rd : localDirection sNN mesh2.inverseTransform rayC = ⟨0, 0, 1⟩ := by
  norm_num [localDirection, mesh2, rayC, multiplyMV, toVec4, idMat4, normalizeS,
    lengthS, dot3, sNN, Vec3.smul_mk]

theorem mesh2_irt : intersectRayTriangle ⟨-1/10, -1/10, 4999/10000⟩ ⟨0, 0, 1⟩
    ⟨-2/5, -2/5, 9999/20000⟩ ⟨-2/5, 2/5, 9999/20000⟩ ⟨2/5, -2/5, 9999/20000⟩ =
    some ⟨3/8, 3/8, 1/20000⟩ := by
  norm_num [intersectRayTriangle, cross3, dot3, glmEpsilon, Vec3.sub_mk]

theorem mesh2_hit : hitOf sNN ⟨-1/10, -1/10, 4999/10000⟩ ⟨0, 0, 1⟩
    ⟨⟨-2/5, -2/5, 9999/20000⟩, ⟨-2/5, 2/5, 9999/20000⟩, ⟨2/5, -2/5, 9999/20000⟩⟩ =
    some (1/400000000, ⟨-1/10, -1/10, 9999/20000⟩, ⟨0, 0, -25/16⟩) := by
  rw [hitOf, mesh2_irt]
  norm_num [lengthS, dot3, cross3, normalizeS, sNN, Vec3.sub_mk, Vec3.add_mk, Vec3.smul_mk]

theorem mesh2_hits : hitsOf sNN (localOrigin mesh2.inverseTransform rayC)
    (localDirection sNN mesh2.inverseTransform rayC) (meshLocalTris mesh2) =
    [(1/400000000, ⟨-1/10, -1/10, 9999/20000⟩, ⟨0, 0, -25/16⟩)] := by
  rw [mesh2_ro, mesh2_rd, mesh2_tris, hitsOf, List.filterMap_cons]
  rw [mesh2_hit]
  rfl

theorem boxRayC_slab : boxSlab sNN geomId rayC =
    ⟨.fin (-(10 ^ 38 : ℚ)), .fin (1 / 10000), zero3, ⟨0, 0, -1⟩⟩ := by
  norm_num [boxSlab, slabRun, slabAxis, slabInit, qdivE, ExtQ.lt, ExtQ.minG,
    ExtQ.maxG, Vec3.comp, axisVec, localOrigin, localDirection, geomId, idMat4,
    rayC, multiplyMV, toVec4, normalizeS, lengthS, dot3, sNN, Vec3.smul_mk, zero3]

theorem boxRayC_result (st : HitOut) : boxIntersectionTest sNN geomId rayC st =
    (0, ⟨⟨-1/10, -1/10, 4999/10000⟩, ⟨0, 0, -1⟩, false⟩) := by
  rw [boxIntersectionTest_unfold, boxRayC_slab]
  norm_num [ExtQ.le, ExtQ.lt, ExtQ.toRat, getPointOnRay, normalizeS, lengthS, dot3,
    sNN, localOrigin, localDirection, geomId, idMat4, rayC, multiplyMV, toVec4,
    Vec3.smul_mk, Vec3.add_mk, Vec3.sub_mk]

theorem octC_dist : nodeBoxDist sNN octC rayC 0 = 0 := by
  rw [nodeBoxDist, show octC.boundingBoxes 0 = geomId from rfl, boxRayC_result]

theorem octC_visit : octreeVisit sNN octC rayC 1 [0] = some [] := by
  rw [octreeVisit_succ]
  rw [if_neg (by rw [octC_dist]; norm_num)]
  rw [octreeVisit_nil]

theorem octC_otrace (b : Bool) :
    octreeOutsideTrace sNN octC rayC 1 [0] b = some false := by
  rw [octreeOutsideTrace_succ]
  rw [show nodeBoxOutside sNN octC rayC 0 b = false from by
    rw [nodeBoxOutside, show octC.boundingBoxes 0 = geomId from rfl, boxRayC_result]]
  rw [if_neg (by rw [octC_dist]; norm_num)]
  rw [octreeOutsideTrace_nil]

/-- C1 counterexample: `octC` is an octree over `mesh2` satisfying the
build-time invariants — same transforms, the single leaf's range `[0,1)`
partitions the one-triangle set, its triangle is a copy of the mesh
triangle, and the leaf (= root) bounding box contains all three vertices —
yet for the ray `rayC`, whose origin lies exactly `1e-4` (the
`getPointOnRay` bias) inside the box's `+z` face, the node's box test
returns a distance of exactly `0`, the subtree is pruned, and the octree
test reports no hit (`-1`) while the brute-force mesh test reports a hit
(non-negative distance): they disagree on hit versus no-hit. -/
theorem meshOctreeAgreement_counterexample :
    (octC.dataStarts 0 = 0 ∧ octC.dataStarts 1 = 1 ∧
     octC.triangles 0 = meshTriangle mesh2 0 ∧
     octC.transform = mesh2.transform ∧
     octC.inverseTransform = mesh2.inverseTransform ∧
     pointInUnitBox (octC.boundingBoxes 0).inverseTransform (octC.triangles 0).v0 ∧
     pointInUnitBox (octC.boundingBoxes 0).inverseTransform (octC.triangles 0).v1 ∧
     pointInUnitBox (octC.boundingBoxes 0).inverseTransform (octC.triangles 0).v2) ∧
    0 ≤ (meshIntersectionTest sNN mesh2 rayC hit0).1 ∧
    (octreeIntersectionTest sNN 1 octC rayC hit0).map Prod.fst = some (-1) := by
  refine ⟨⟨rfl, rfl, ?_, rfl, rfl, ?_, ?_, ?_⟩, ?_, ?_⟩
  · norm_num [octC, meshTriangle, meshVert, mesh2]
  · norm_num [pointInUnitBox, octC, geomId, idMat4, multiplyMV, toVec4]
  · norm_num [pointInUnitBox, octC, geomId, idMat4, multiplyMV, toVec4]
  · norm_num [pointInUnitBox, octC, geomId, idMat4, multiplyMV, toVec4]
  · rw [meshTest_hit sNN mesh2 rayC hit0 sNN_nonneg _ _ mesh2_hits, facingPost_fst]
    exact sNN_nonneg _
  · rw [octreeTest_eq, show octC.root = (0 : ℤ) from rfl, octC_visit, octC_otrace]
    dsimp only [List.map_nil, List.foldl_nil]
    rw [if_pos (show ((⟨-1, hit0.point, hit0.normal⟩ : TriState)).t < 0 by norm_num)]
    rfl

end PT
